/-
Verification of the dsa-win64 deep-sequencing-analysis pipeline against its
natural-language specification.  The C++ sources are shallowly embedded:
byte buffers become `List Char`, SIMD kernels are replaced by their scalar
per-byte semantics (the AVX2 code computes the same bytes), and machine
integers become `Nat`/`Int`.
-/
import Mathlib

namespace DSA

/-! ## Overlap scanner (src/align.cc, `find_overlapv_256`)

The AVX2 kernel maintains two dynamic-programming rows `lower`/`upper` over
`a` with `upper[c+1] = lower[c] + (a[c] == b[r])`; saturating 16-bit adds
never saturate because entries are bounded by the sequence lengths, so the
scalar model uses `Nat`. -/

/-- Result record of the overlap scan (`struct Overlap`). -/
structure Overlap where
  overlap    : Nat
  mismatches : Nat
  in_order   : Bool
  deriving DecidableEq, Repr

/-- One DP row update: `upper[0] = 0`, `upper[c+1] = lower[c] + (a[c] == b_r)`. -/
def ovRow (a : List Char) (bc : Char) (prev : List Nat) : List Nat :=
  0 :: List.zipWith (fun p ac => p + (if ac = bc then 1 else 0)) prev a

/-- The zero row `T[0][·]` of the DP table. -/
def ovInit (a : List Char) : List Nat :=
  List.replicate (a.length + 1) 0

/-- The row loop of `find_overlapv_256`: for each `r` update the row and
record a new best when `max_overlap < upper[a_size]` and
`r + 1 ≤ upper[a_size] + K`. -/
def rowScan (a : List Char) (K : Nat) :
    List Char → List Nat → Nat → Nat → Nat → (List Nat × Nat × Nat)
  | [], row, _, mo, mr => (row, mo, mr)
  | bc :: bs, row, r, mo, mr =>
    let cur := ovRow a bc row
    let v := cur.getLastD 0
    if mo < v ∧ r + 1 ≤ v + K then rowScan a K bs cur (r + 1) v r
    else rowScan a K bs cur (r + 1) mo mr

/-- The column loop of `find_overlapv_256` over the final row entries
`upper[1..a_size]`; an update clears `in_order`. -/
def colScan (K : Nat) : List Nat → Nat → Nat → Nat → Bool → (Nat × Nat × Bool)
  | [], _, mo, mr, ord => (mo, mr, ord)
  | w :: ws, c, mo, mr, ord =>
    if mo < w ∧ c + 1 ≤ w + K then colScan K ws (c + 1) w c false
    else colScan K ws (c + 1) mo mr ord

/-- Scalar model of `find_overlapv_256` (src/align.cc lines 35-71). -/
def find_overlapv (a b : List Char) (K : Nat) : Overlap :=
  let s := rowScan a K b (ovInit a) 0 0 0
  let t := colScan K (s.1.drop 1) 0 s.2.1 s.2.2 true
  ⟨t.2.1 + 1, t.2.1 + 1 - t.1, t.2.2⟩

/-! ## DNA complement and reverse-complement (src/dna.cc) -/

/-- The complement lookup table `Nt::clut = "-T-GA--C------N"` indexed by the
low nibble of the ASCII byte. -/
def clut : List Char := ['-', 'T', '-', 'G', 'A', '-', '-', 'C', '-', '-', '-', '-', '-', '-', 'N']

/-- Complement of one nucleotide byte: `clut[v & 0xF]`. -/
def ntComplement (c : Char) : Char :=
  clut.getD (c.toNat % 16) '-'

/-- Scalar semantics of `mm256_reverse_complement_dna`: reverse the buffer and
complement every byte. -/
def reverse_complement (dna : List Char) : List Char :=
  (dna.reverse).map ntComplement

/-! ## Reads and paired-end assembly (src/align.cc, `Read::assemble`) -/

/-- Model of `struct Read` (quality bytes as `Char`). -/
structure Read where
  barcode : List Char
  umi_group_size : Nat
  dna  : List Char
  qual : List Char
  deriving DecidableEq, Repr

/-- The default-constructed `Read rd` returned when assembly fails. -/
def emptyRead : Read := ⟨[], 1, [], []⟩

/-- Model of `Read::assemble` (src/align.cc lines 73-107).  Note that the
source calls `find_overlapv_256` WITHOUT forwarding `max_mismatches`, so the
scan runs with its default `max_mismatches = 0`. -/
def Read.assemble (fw rv : Read) (min_overlap_size max_mismatches : Nat) : Read :=
  let rvdna := reverse_complement rv.dna
  let ol := find_overlapv fw.dna rvdna 0
  if ol.overlap < min_overlap_size ∨ max_mismatches < ol.mismatches then emptyRead
  else
    let rvqual := rv.qual.reverse
    let p := if ol.in_order then ((fw.dna, fw.qual), (rvdna, rvqual))
             else ((rvdna, rvqual), (fw.dna, fw.qual))
    let fdna := p.1.1
    let fqual := p.1.2
    let rdna := p.2.1
    let rqual := p.2.2
    let k := fdna.length - ol.overlap
    let fovl := List.zip (fdna.drop k) (fqual.drop k)
    let rovl := List.zip (rdna.take ol.overlap) (rqual.take ol.overlap)
    let merged := List.zipWith
      (fun f r => if f.2 < r.2 then r else f) fovl rovl
    { barcode := fw.barcode ++ rv.barcode
      umi_group_size := 1
      dna  := fdna.take k ++ merged.map Prod.fst ++ rdna.drop ol.overlap
      qual := fqual.take k ++ merged.map Prod.snd ++ rqual.drop ol.overlap }

/-! ## Needleman-Wunsch aligner (align.h template `nw_align`, `build_string`)

The monomer type parameter `M` of the C++ template is modelled by a record of
the per-monomer functions (`index()`, `gap_char<M>`, `ins_char<M>`,
`reg_char<M>`). -/

/-- `Cell::Move` of the traceback matrix. -/
inductive Move where
  | MATCH : Move
  | GAP_Q : Move
  | GAP_T : Move
  deriving DecidableEq, Repr

/-- `struct Cell` of the traceback matrix. -/
structure Cell where
  score : Int
  move  : Move
  deriving DecidableEq, Repr

/-- The per-monomer operations supplied by C++ template specialization. -/
structure MonomerOps where
  idx     : Char → Nat
  gapChar : Char
  insChar : Char → Char
  regChar : Char → Char

/-- `Matrix<int32_t>::elem(row, col)` on a row-major list of rows. -/
def melem (subs : List (List Int)) (row col : Nat) : Int :=
  (subs.getD row []).getD col 0

/-- Fill the non-zero columns of one traceback row: `pdiag`/`prest` walk the
previous row, `left` is the cell just written in the current row, `n` is the
query symbol index and `gappA` the row's query-gap penalty. -/
def nwRowAux (subs : List (List Int)) (gapp : Int) (n : Nat) (gappA : Int) :
    List Nat → List Cell → Cell → List Cell
  | [], _, _ => []
  | _ :: _, [], _ => []
  | m :: ms, pdiag :: prest, left =>
    let up := prest.headD ⟨0, .MATCH⟩
    let gappB : Int := if ms = [] then 0 else gapp
    let c0 : Cell := ⟨pdiag.score + melem subs m n, .MATCH⟩
    let c1 : Cell := if left.score - gappA > c0.score then ⟨left.score - gappA, .GAP_Q⟩ else c0
    let c2 : Cell := if up.score - gappB > c1.score then ⟨up.score - gappB, .GAP_T⟩ else c1
    c2 :: nwRowAux subs gapp n gappA ms prest c2

/-- Rows `1..q_size` of the traceback matrix; each starts with the column-0
cell `⟨0, GAP_T⟩` set by the initialization loop. -/
def nwRows (ops : MonomerOps) (subs : List (List Int)) (gapp : Int) (tIdx : List Nat) :
    List Char → List Cell → List (List Cell)
  | [], _ => []
  | qi :: qs, prev =>
    let gappA : Int := if qs = [] then 0 else gapp
    let row := ⟨0, .GAP_T⟩ :: nwRowAux subs gapp (ops.idx qi) gappA tIdx prev ⟨0, .GAP_T⟩
    row :: nwRows ops subs gapp tIdx qs row

/-- Row 0 of the traceback matrix: cell (0,0) keeps its default `MATCH`, the
rest of the row is `GAP_Q`. -/
def nwRow0 (tLen : Nat) : List Cell :=
  ⟨0, .MATCH⟩ :: List.replicate tLen ⟨0, .GAP_Q⟩

/-- The full traceback matrix of `nw_align`. -/
def nwTrace (ops : MonomerOps) (q t : List Char) (subs : List (List Int)) (gapp : Int) :
    List (List Cell) :=
  let row0 := nwRow0 t.length
  row0 :: nwRows ops subs gapp (t.map ops.idx) q row0

/-- `Alignment::build_string`: walk the traceback from `(i, j)` to `(0, 0)`.
The result is accumulated back-to-front and reversed by the caller; `fuel`
bounds the walk (the C++ loop runs while `i + j != 0`). -/
def buildString (ops : MonomerOps) (trace : List (List Cell)) (q : List Char) :
    Nat → Nat → Nat → List Char
  | 0, _, _ => []
  | fuel + 1, i, j =>
    if i + j = 0 then []
    else
      match ((trace.getD i []).getD j ⟨0, .MATCH⟩).move with
      | .GAP_Q => ops.gapChar :: buildString ops trace q fuel i (j - 1)
      | .GAP_T => ops.insChar (q.getD (i - 1) ' ') :: buildString ops trace q fuel (i - 1) j
      | .MATCH => ops.regChar (q.getD (i - 1) ' ') :: buildString ops trace q fuel (i - 1) (j - 1)

/-- The result record of `nw_align` (score and gapped query string). -/
structure NWResult where
  score : Int
  aligned_query : List Char
  deriving DecidableEq, Repr

/-- Model of the generic `nw_align` (align.h lines 246-295). -/
def nw_align (ops : MonomerOps) (q t : List Char) (subs : List (List Int))
    (gapp : Int) (score_only : Bool) : NWResult :=
  let trace := nwTrace ops q t subs gapp
  let score := ((trace.getLastD []).getLastD ⟨0, .MATCH⟩).score
  if score_only then ⟨score, []⟩
  else ⟨score, (buildString ops trace q (q.length + t.length) q.length t.length).reverse⟩

/-- `nw_self_align_score` (align.h lines 323-332). -/
def nw_self_align_score (ops : MonomerOps) (q : List Char) (subs : List (List Int)) : Int :=
  q.foldl (fun s m => s + melem subs (ops.idx m) (ops.idx m)) 0

/-! ## Monomer index functions and the amino-acid alphabet -/

/-- `Aa::indices`, the 48-entry sparse index table (aa.cc). -/
def aaIndices : List Nat :=
  [0, 0, 0, 0, 0, 0, 0, 0,
   0, 0, 0, 0, 0, 0, 0, 0,
   0, 0, 0, 0, 0, 0, 0, 1,
   0, 2, 3, 4, 5, 6, 7, 8,
   0, 9, 10, 11, 12, 0, 13, 14,
   15, 16, 17, 0, 18, 19, 0, 20]

/-- `Aa::index()`: `indices[v - '*']`. -/
def aaIndex (c : Char) : Nat :=
  aaIndices.getD (c.toNat - 42) 0

/-- `Nt::indexes` (dna.cc line 25). -/
def ntIndexes : List Nat := [0, 1, 2, 3, 0, 0, 0, 4]

/-- `Nt::index()`: `indexes[(v & 0b1111) >> 1]`. -/
def ntIndex (c : Char) : Nat :=
  ntIndexes.getD ((c.toNat % 16) / 2) 0

/-- `Cdn::index()`: `v - BIAS` with `BIAS = 0x30`. -/
def cdnIndex (c : Char) : Nat :=
  c.toNat - 48

/-- Monomer operations for amino acids (`gap_char = '-'`, lowercase
insertions, uppercase matches). -/
def aaOps : MonomerOps := ⟨aaIndex, '-', Char.toLower, Char.toUpper⟩

/-- Monomer operations for nucleotides. -/
def ntOps : MonomerOps := ⟨ntIndex, '-', Char.toLower, Char.toUpper⟩

/-- Monomer operations for codons (template specializations for `Cdn`:
gap is a space, insertion and match characters are the codon byte as-is). -/
def cdnOps : MonomerOps := ⟨cdnIndex, ' ', id, id⟩

/-! ## Substitution matrices (src/align.cc) -/

/-- `blosum62_data`, the 21x21 BLOSUM62 matrix (src/align.cc lines 109-131),
row-major over `Aa::index()`. -/
def BLOSUM62 : List (List Int) :=
 [[0,-4,-4,-4,-4,-4,-4,-4,-4,-4,-4,-4,-4,-4,-4,-4,-4,-4,-4,-4,-4],
  [-4,4,0,-2,-1,-2,0,-2,-1,-1,-1,-1,-2,-1,-1,-1,1,0,0,-3,-2],
  [-4,0,9,-3,-4,-2,-3,-3,-1,-3,-1,-1,-3,-3,-3,-3,-1,-1,-1,-2,-2],
  [-4,-2,-3,6,2,-3,-1,-1,-3,-1,-4,-3,1,-1,0,-2,0,-1,-3,-4,-3],
  [-4,-1,-4,2,5,-3,-2,0,-3,1,-3,-2,0,-1,2,0,0,-1,-2,-3,-2],
  [-4,-2,-2,-3,-3,6,-3,-1,0,-3,0,0,-3,-4,-3,-3,-2,-2,-1,1,3],
  [-4,0,-3,-1,-2,-3,6,-2,-4,-2,-4,-3,0,-2,-2,-2,0,-2,-3,-2,-3],
  [-4,-2,-3,-1,0,-1,-2,8,-3,-1,-3,-2,1,-2,0,0,-1,-2,-3,-2,2],
  [-4,-1,-1,-3,-3,0,-4,-3,4,-3,2,1,-3,-3,-3,-3,-2,-1,3,-3,-1],
  [-4,-1,-3,-1,1,-3,-2,-1,-3,5,-2,-1,0,-1,1,2,0,-1,-2,-3,-2],
  [-4,-1,-1,-4,-3,0,-4,-3,2,-2,4,2,-3,-3,-2,-2,-2,-1,1,-2,-1],
  [-4,-1,-1,-3,-2,0,-3,-2,1,-1,2,5,-2,-2,0,-1,-1,-1,1,-1,-1],
  [-4,-2,-3,1,0,-3,0,1,-3,0,-3,-2,6,-2,0,0,1,0,-3,-4,-2],
  [-4,-1,-3,-1,-1,-4,-2,-2,-3,-1,-3,-2,-2,7,-1,-2,-1,-1,-2,-4,-3],
  [-4,-1,-3,0,2,-3,-2,0,-3,1,-2,0,0,-1,5,1,0,-1,-2,-2,-1],
  [-4,-1,-3,-2,0,-3,-2,0,-3,2,-2,-1,0,-2,1,5,-1,-1,-3,-3,-2],
  [-4,1,-1,0,0,-2,0,-1,-2,0,-2,-1,1,-1,0,-1,4,1,-2,-3,-2],
  [-4,0,-1,-1,-1,-2,-2,-2,-1,-1,-1,-1,0,-1,-1,-1,1,5,0,-2,-2],
  [-4,0,-1,-3,-2,-1,-3,-3,3,-2,1,1,-3,-2,-2,-3,-2,0,4,-3,-1],
  [-4,-3,-2,-4,-3,1,-2,-2,-3,-3,-2,-1,-4,-4,-2,-3,-3,-2,-3,11,2],
  [-4,-2,-2,-3,-2,3,-3,2,-1,-2,-1,-1,-2,-3,-1,-2,-2,-2,-1,2,7]]

/-- Row 0 of the hardcoded `cdnsubs_data` table. -/
def cdnsubsRow0 : List Int := [6,0,0,5,-1,-1,-1,-1,-3,-3,-3,-1,2,0,0,2,1,-1,-1,1,-1,-1,-1,-1,-2,-2,-2,-2,2,2,2,2,-4,-2,-2,-4,0,0,0,0,-2,-3,-3,-2,-4,-3,-3,-3,1,-1,-1,1,-1,-1,-1,-1,-2,-2,-2,-2,-2,-2,-2,-2]

/-- Row 1 of the hardcoded `cdnsubs_data` table. -/
def cdnsubsRow1 : List Int := [0,7,6,0,0,0,0,0,-3,-3,-3,-2,0,1,1,0,0,1,1,0,-2,-2,-2,-2,-3,-3,-3,-3,0,0,0,0,-4,-2,-2,-4,1,1,1,1,-3,-3,-3,-3,-4,-3,-3,-4,0,1,1,0,-2,-2,-2,-2,-3,-3,-3,-3,0,0,0,0]

/-- Row 2 of the hardcoded `cdnsubs_data` table. -/
def cdnsubsRow2 : List Int := [0,6,7,0,0,0,0,0,-3,-3,-3,-2,0,1,1,0,0,1,1,0,-2,-2,-2,-2,-3,-3,-3,-3,0,0,0,0,-4,-2,-2,-4,1,1,1,1,-3,-3,-3,-3,-4,-3,-3,-4,0,1,1,0,-2,-2,-2,-2,-3,-3,-3,-3,0,0,0,0]

/-- Row 3 of the hardcoded `cdnsubs_data` table. -/
def cdnsubsRow3 : List Int := [5,0,0,6,-1,-1,-1,-1,-3,-3,-3,-1,2,0,0,2,1,-1,-1,1,-1,-1,-1,-1,-2,-2,-2,-2,2,2,2,2,-4,-2,-2,-4,0,0,0,0,-2,-3,-3,-2,-4,-3,-3,-3,1,-1,-1,1,-1,-1,-1,-1,-2,-2,-2,-2,-2,-2,-2,-2]

/-- Row 4 of the hardcoded `cdnsubs_data` table. -/
def cdnsubsRow4 : List Int := [-1,0,0,-1,6,5,5,5,-1,-1,-1,-1,-1,1,1,-1,-1,-2,-2,-1,-1,-1,-1,-1,-1,-1,-1,-1,-1,-1,-1,-1,-4,-2,-2,-4,1,1,1,1,-1,-2,-2,-1,-4,-1,-1,-2,-1,-1,-1,-1,0,0,0,0,0,0,0,0,-2,-2,-2,-2]

/-- Row 5 of the hardcoded `cdnsubs_data` table. -/
def cdnsubsRow5 : List Int := [-1,0,0,-1,5,6,5,5,-1,-1,-1,-1,-1,1,1,-1,-1,-2,-2,-1,-1,-1,-1,-1,-1,-1,-1,-1,-1,-1,-1,-1,-4,-2,-2,-4,1,1,1,1,-1,-2,-2,-1,-4,-1,-1,-2,-1,-1,-1,-1,0,0,0,0,0,0,0,0,-2,-2,-2,-2]

/-- Row 6 of the hardcoded `cdnsubs_data` table. -/
def cdnsubsRow6 : List Int := [-1,0,0,-1,5,5,6,5,-1,-1,-1,-1,-1,1,1,-1,-1,-2,-2,-1,-1,-1,-1,-1,-1,-1,-1,-1,-1,-1,-1,-1,-4,-2,-2,-4,1,1,1,1,-1,-2,-2,-1,-4,-1,-1,-2,-1,-1,-1,-1,0,0,0,0,0,0,0,0,-2,-2,-2,-2]

/-- Row 7 of the hardcoded `cdnsubs_data` table. -/
def cdnsubsRow7 : List Int := [-1,0,0,-1,5,5,5,6,-1,-1,-1,-1,-1,1,1,-1,-1,-2,-2,-1,-1,-1,-1,-1,-1,-1,-1,-1,-1,-1,-1,-1,-4,-2,-2,-4,1,1,1,1,-1,-2,-2,-1,-4,-1,-1,-2,-1,-1,-1,-1,0,0,0,0,0,0,0,0,-2,-2,-2,-2]

/-- Row 8 of the hardcoded `cdnsubs_data` table. -/
def cdnsubsRow8 : List Int := [-3,-3,-3,-3,-1,-1,-1,-1,5,4,4,1,-3,-2,-2,-3,-3,-3,-3,-3,-3,-3,-3,-3,2,2,2,2,-3,-3,-3,-3,-4,-1,-1,-4,-2,-2,-2,-2,2,0,0,2,-4,-1,-1,-3,-3,-3,-3,-3,-1,-1,-1,-1,3,3,3,3,-4,-4,-4,-4]

/-- Row 9 of the hardcoded `cdnsubs_data` table. -/
def cdnsubsRow9 : List Int := [-3,-3,-3,-3,-1,-1,-1,-1,4,5,4,1,-3,-2,-2,-3,-3,-3,-3,-3,-3,-3,-3,-3,2,2,2,2,-3,-3,-3,-3,-4,-1,-1,-4,-2,-2,-2,-2,2,0,0,2,-4,-1,-1,-3,-3,-3,-3,-3,-1,-1,-1,-1,3,3,3,3,-4,-4,-4,-4]

/-- Row 10 of the hardcoded `cdnsubs_data` table. -/
def cdnsubsRow10 : List Int := [-3,-3,-3,-3,-1,-1,-1,-1,4,4,5,1,-3,-2,-2,-3,-3,-3,-3,-3,-3,-3,-3,-3,2,2,2,2,-3,-3,-3,-3,-4,-1,-1,-4,-2,-2,-2,-2,2,0,0,2,-4,-1,-1,-3,-3,-3,-3,-3,-1,-1,-1,-1,3,3,3,3,-4,-4,-4,-4]

/-- Row 11 of the hardcoded `cdnsubs_data` table. -/
def cdnsubsRow11 : List Int := [-1,-2,-2,-1,-1,-1,-1,-1,1,1,1,6,-1,-1,-1,-1,0,-2,-2,0,-2,-2,-2,-2,2,2,2,2,-1,-1,-1,-1,-4,-1,-1,-4,-1,-1,-1,-1,2,0,0,2,-4,-1,-1,-1,-2,-3,-3,-2,-1,-1,-1,-1,1,1,1,1,-3,-3,-3,-3]

/-- Row 12 of the hardcoded `cdnsubs_data` table. -/
def cdnsubsRow12 : List Int := [2,0,0,2,-1,-1,-1,-1,-3,-3,-3,-1,6,-1,-1,5,1,0,0,1,-2,-2,-2,-2,-2,-2,-2,-2,5,5,5,5,-4,-2,-2,-4,-1,-1,-1,-1,-2,-3,-3,-2,-4,-3,-3,-3,0,-2,-2,0,-1,-1,-1,-1,-3,-3,-3,-3,-2,-2,-2,-2]

/-- Row 13 of the hardcoded `cdnsubs_data` table. -/
def cdnsubsRow13 : List Int := [0,1,1,0,1,1,1,1,-2,-2,-2,-1,-1,5,4,-1,0,-1,-1,0,-1,-1,-1,-1,-2,-2,-2,-2,-1,-1,-1,-1,-4,-2,-2,-4,4,4,4,4,-2,-2,-2,-2,-4,-1,-1,-3,0,0,0,0,1,1,1,1,-2,-2,-2,-2,0,0,0,0]

/-- Row 14 of the hardcoded `cdnsubs_data` table. -/
def cdnsubsRow14 : List Int := [0,1,1,0,1,1,1,1,-2,-2,-2,-1,-1,4,5,-1,0,-1,-1,0,-1,-1,-1,-1,-2,-2,-2,-2,-1,-1,-1,-1,-4,-2,-2,-4,4,4,4,4,-2,-2,-2,-2,-4,-1,-1,-3,0,0,0,0,1,1,1,1,-2,-2,-2,-2,0,0,0,0]

/-- Row 15 of the hardcoded `cdnsubs_data` table. -/
def cdnsubsRow15 : List Int := [2,0,0,2,-1,-1,-1,-1,-3,-3,-3,-1,5,-1,-1,6,1,0,0,1,-2,-2,-2,-2,-2,-2,-2,-2,5,5,5,5,-4,-2,-2,-4,-1,-1,-1,-1,-2,-3,-3,-2,-4,-3,-3,-3,0,-2,-2,0,-1,-1,-1,-1,-3,-3,-3,-3,-2,-2,-2,-2]

/-- Row 16 of the hardcoded `cdnsubs_data` table. -/
def cdnsubsRow16 : List Int := [1,0,0,1,-1,-1,-1,-1,-3,-3,-3,0,1,0,0,1,6,0,0,5,-1,-1,-1,-1,-2,-2,-2,-2,1,1,1,1,-4,-1,-1,-4,0,0,0,0,-2,-3,-3,-2,-4,-3,-3,-2,2,0,0,2,-1,-1,-1,-1,-2,-2,-2,-2,-2,-2,-2,-2]

/-- Row 17 of the hardcoded `cdnsubs_data` table. -/
def cdnsubsRow17 : List Int := [-1,1,1,-1,-2,-2,-2,-2,-3,-3,-3,-2,0,-1,-1,0,0,9,8,0,-2,-2,-2,-2,-3,-3,-3,-3,0,0,0,0,-4,2,2,-4,-1,-1,-1,-1,-3,-1,-1,-3,-4,-3,-3,-2,0,-1,-1,0,-2,-2,-2,-2,-3,-3,-3,-3,-2,-2,-2,-2]

/-- Row 18 of the hardcoded `cdnsubs_data` table. -/
def cdnsubsRow18 : List Int := [-1,1,1,-1,-2,-2,-2,-2,-3,-3,-3,-2,0,-1,-1,0,0,8,9,0,-2,-2,-2,-2,-3,-3,-3,-3,0,0,0,0,-4,2,2,-4,-1,-1,-1,-1,-3,-1,-1,-3,-4,-3,-3,-2,0,-1,-1,0,-2,-2,-2,-2,-3,-3,-3,-3,-2,-2,-2,-2]

/-- Row 19 of the hardcoded `cdnsubs_data` table. -/
def cdnsubsRow19 : List Int := [1,0,0,1,-1,-1,-1,-1,-3,-3,-3,0,1,0,0,1,5,0,0,6,-1,-1,-1,-1,-2,-2,-2,-2,1,1,1,1,-4,-1,-1,-4,0,0,0,0,-2,-3,-3,-2,-4,-3,-3,-2,2,0,0,2,-1,-1,-1,-1,-2,-2,-2,-2,-2,-2,-2,-2]

/-- Row 20 of the hardcoded `cdnsubs_data` table. -/
def cdnsubsRow20 : List Int := [-1,-2,-2,-1,-1,-1,-1,-1,-3,-3,-3,-2,-2,-1,-1,-2,-1,-2,-2,-1,8,7,7,7,-3,-3,-3,-3,-2,-2,-2,-2,-4,-3,-3,-4,-1,-1,-1,-1,-3,-4,-4,-3,-4,-3,-3,-4,-1,-1,-1,-1,-1,-1,-1,-1,-2,-2,-2,-2,-2,-2,-2,-2]

/-- Row 21 of the hardcoded `cdnsubs_data` table. -/
def cdnsubsRow21 : List Int := [-1,-2,-2,-1,-1,-1,-1,-1,-3,-3,-3,-2,-2,-1,-1,-2,-1,-2,-2,-1,7,8,7,7,-3,-3,-3,-3,-2,-2,-2,-2,-4,-3,-3,-4,-1,-1,-1,-1,-3,-4,-4,-3,-4,-3,-3,-4,-1,-1,-1,-1,-1,-1,-1,-1,-2,-2,-2,-2,-2,-2,-2,-2]

/-- Row 22 of the hardcoded `cdnsubs_data` table. -/
def cdnsubsRow22 : List Int := [-1,-2,-2,-1,-1,-1,-1,-1,-3,-3,-3,-2,-2,-1,-1,-2,-1,-2,-2,-1,7,7,8,7,-3,-3,-3,-3,-2,-2,-2,-2,-4,-3,-3,-4,-1,-1,-1,-1,-3,-4,-4,-3,-4,-3,-3,-4,-1,-1,-1,-1,-1,-1,-1,-1,-2,-2,-2,-2,-2,-2,-2,-2]

/-- Row 23 of the hardcoded `cdnsubs_data` table. -/
def cdnsubsRow23 : List Int := [-1,-2,-2,-1,-1,-1,-1,-1,-3,-3,-3,-2,-2,-1,-1,-2,-1,-2,-2,-1,7,7,7,8,-3,-3,-3,-3,-2,-2,-2,-2,-4,-3,-3,-4,-1,-1,-1,-1,-3,-4,-4,-3,-4,-3,-3,-4,-1,-1,-1,-1,-1,-1,-1,-1,-2,-2,-2,-2,-2,-2,-2,-2]

/-- Row 24 of the hardcoded `cdnsubs_data` table. -/
def cdnsubsRow24 : List Int := [-2,-3,-3,-2,-1,-1,-1,-1,2,2,2,2,-2,-2,-2,-2,-2,-3,-3,-2,-3,-3,-3,-3,5,4,4,4,-2,-2,-2,-2,-4,-1,-1,-4,-2,-2,-2,-2,4,0,0,4,-4,-1,-1,-2,-3,-4,-4,-3,-1,-1,-1,-1,1,1,1,1,-4,-4,-4,-4]

/-- Row 25 of the hardcoded `cdnsubs_data` table. -/
def cdnsubsRow25 : List Int := [-2,-3,-3,-2,-1,-1,-1,-1,2,2,2,2,-2,-2,-2,-2,-2,-3,-3,-2,-3,-3,-3,-3,4,5,4,4,-2,-2,-2,-2,-4,-1,-1,-4,-2,-2,-2,-2,4,0,0,4,-4,-1,-1,-2,-3,-4,-4,-3,-1,-1,-1,-1,1,1,1,1,-4,-4,-4,-4]

/-- Row 26 of the hardcoded `cdnsubs_data` table. -/
def cdnsubsRow26 : List Int := [-2,-3,-3,-2,-1,-1,-1,-1,2,2,2,2,-2,-2,-2,-2,-2,-3,-3,-2,-3,-3,-3,-3,4,4,5,4,-2,-2,-2,-2,-4,-1,-1,-4,-2,-2,-2,-2,4,0,0,4,-4,-1,-1,-2,-3,-4,-4,-3,-1,-1,-1,-1,1,1,1,1,-4,-4,-4,-4]

/-- Row 27 of the hardcoded `cdnsubs_data` table. -/
def cdnsubsRow27 : List Int := [-2,-3,-3,-2,-1,-1,-1,-1,2,2,2,2,-2,-2,-2,-2,-2,-3,-3,-2,-3,-3,-3,-3,4,4,4,5,-2,-2,-2,-2,-4,-1,-1,-4,-2,-2,-2,-2,4,0,0,4,-4,-1,-1,-2,-3,-4,-4,-3,-1,-1,-1,-1,1,1,1,1,-4,-4,-4,-4]

/-- Row 28 of the hardcoded `cdnsubs_data` table. -/
def cdnsubsRow28 : List Int := [2,0,0,2,-1,-1,-1,-1,-3,-3,-3,-1,5,-1,-1,5,1,0,0,1,-2,-2,-2,-2,-2,-2,-2,-2,6,5,5,5,-4,-2,-2,-4,-1,-1,-1,-1,-2,-3,-3,-2,-4,-3,-3,-3,0,-2,-2,0,-1,-1,-1,-1,-3,-3,-3,-3,-2,-2,-2,-2]

/-- Row 29 of the hardcoded `cdnsubs_data` table. -/
def cdnsubsRow29 : List Int := [2,0,0,2,-1,-1,-1,-1,-3,-3,-3,-1,5,-1,-1,5,1,0,0,1,-2,-2,-2,-2,-2,-2,-2,-2,5,6,5,5,-4,-2,-2,-4,-1,-1,-1,-1,-2,-3,-3,-2,-4,-3,-3,-3,0,-2,-2,0,-1,-1,-1,-1,-3,-3,-3,-3,-2,-2,-2,-2]

/-- Row 30 of the hardcoded `cdnsubs_data` table. -/
def cdnsubsRow30 : List Int := [2,0,0,2,-1,-1,-1,-1,-3,-3,-3,-1,5,-1,-1,5,1,0,0,1,-2,-2,-2,-2,-2,-2,-2,-2,5,5,6,5,-4,-2,-2,-4,-1,-1,-1,-1,-2,-3,-3,-2,-4,-3,-3,-3,0,-2,-2,0,-1,-1,-1,-1,-3,-3,-3,-3,-2,-2,-2,-2]

/-- Row 31 of the hardcoded `cdnsubs_data` table. -/
def cdnsubsRow31 : List Int := [2,0,0,2,-1,-1,-1,-1,-3,-3,-3,-1,5,-1,-1,5,1,0,0,1,-2,-2,-2,-2,-2,-2,-2,-2,5,5,5,6,-4,-2,-2,-4,-1,-1,-1,-1,-2,-3,-3,-2,-4,-3,-3,-3,0,-2,-2,0,-1,-1,-1,-1,-3,-3,-3,-3,-2,-2,-2,-2]

/-- Row 32 of the hardcoded `cdnsubs_data` table. -/
def cdnsubsRow32 : List Int := [-4,-4,-4,-4,-4,-4,-4,-4,-4,-4,-4,-4,-4,-4,-4,-4,-4,-4,-4,-4,-4,-4,-4,-4,-4,-4,-4,-4,-4,-4,-4,-4,1,-4,-4,0,-4,-4,-4,-4,-4,-4,-4,-4,0,-4,-4,-4,-4,-4,-4,-4,-4,-4,-4,-4,-4,-4,-4,-4,-4,-4,-4,-4]

/-- Row 33 of the hardcoded `cdnsubs_data` table. -/
def cdnsubsRow33 : List Int := [-2,-2,-2,-2,-2,-2,-2,-2,-1,-1,-1,-1,-2,-2,-2,-2,-1,2,2,-1,-3,-3,-3,-3,-1,-1,-1,-1,-2,-2,-2,-2,-4,8,7,-4,-2,-2,-2,-2,-1,3,3,-1,-4,-2,-2,2,-2,-3,-3,-2,-2,-2,-2,-2,-1,-1,-1,-1,-3,-3,-3,-3]

/-- Row 34 of the hardcoded `cdnsubs_data` table. -/
def cdnsubsRow34 : List Int := [-2,-2,-2,-2,-2,-2,-2,-2,-1,-1,-1,-1,-2,-2,-2,-2,-1,2,2,-1,-3,-3,-3,-3,-1,-1,-1,-1,-2,-2,-2,-2,-4,7,8,-4,-2,-2,-2,-2,-1,3,3,-1,-4,-2,-2,2,-2,-3,-3,-2,-2,-2,-2,-2,-1,-1,-1,-1,-3,-3,-3,-3]

/-- Row 35 of the hardcoded `cdnsubs_data` table. -/
def cdnsubsRow35 : List Int := [-4,-4,-4,-4,-4,-4,-4,-4,-4,-4,-4,-4,-4,-4,-4,-4,-4,-4,-4,-4,-4,-4,-4,-4,-4,-4,-4,-4,-4,-4,-4,-4,0,-4,-4,1,-4,-4,-4,-4,-4,-4,-4,-4,0,-4,-4,-4,-4,-4,-4,-4,-4,-4,-4,-4,-4,-4,-4,-4,-4,-4,-4,-4]

/-- Row 36 of the hardcoded `cdnsubs_data` table. -/
def cdnsubsRow36 : List Int := [0,1,1,0,1,1,1,1,-2,-2,-2,-1,-1,4,4,-1,0,-1,-1,0,-1,-1,-1,-1,-2,-2,-2,-2,-1,-1,-1,-1,-4,-2,-2,-4,5,4,4,4,-2,-2,-2,-2,-4,-1,-1,-3,0,0,0,0,1,1,1,1,-2,-2,-2,-2,0,0,0,0]

/-- Row 37 of the hardcoded `cdnsubs_data` table. -/
def cdnsubsRow37 : List Int := [0,1,1,0,1,1,1,1,-2,-2,-2,-1,-1,4,4,-1,0,-1,-1,0,-1,-1,-1,-1,-2,-2,-2,-2,-1,-1,-1,-1,-4,-2,-2,-4,4,5,4,4,-2,-2,-2,-2,-4,-1,-1,-3,0,0,0,0,1,1,1,1,-2,-2,-2,-2,0,0,0,0]

/-- Row 38 of the hardcoded `cdnsubs_data` table. -/
def cdnsubsRow38 : List Int := [0,1,1,0,1,1,1,1,-2,-2,-2,-1,-1,4,4,-1,0,-1,-1,0,-1,-1,-1,-1,-2,-2,-2,-2,-1,-1,-1,-1,-4,-2,-2,-4,4,4,5,4,-2,-2,-2,-2,-4,-1,-1,-3,0,0,0,0,1,1,1,1,-2,-2,-2,-2,0,0,0,0]

/-- Row 39 of the hardcoded `cdnsubs_data` table. -/
def cdnsubsRow39 : List Int := [0,1,1,0,1,1,1,1,-2,-2,-2,-1,-1,4,4,-1,0,-1,-1,0,-1,-1,-1,-1,-2,-2,-2,-2,-1,-1,-1,-1,-4,-2,-2,-4,4,4,4,5,-2,-2,-2,-2,-4,-1,-1,-3,0,0,0,0,1,1,1,1,-2,-2,-2,-2,0,0,0,0]

/-- Row 40 of the hardcoded `cdnsubs_data` table. -/
def cdnsubsRow40 : List Int := [-2,-3,-3,-2,-1,-1,-1,-1,2,2,2,2,-2,-2,-2,-2,-2,-3,-3,-2,-3,-3,-3,-3,4,4,4,4,-2,-2,-2,-2,-4,-1,-1,-4,-2,-2,-2,-2,5,0,0,4,-4,-1,-1,-2,-3,-4,-4,-3,-1,-1,-1,-1,1,1,1,1,-4,-4,-4,-4]

/-- Row 41 of the hardcoded `cdnsubs_data` table. -/
def cdnsubsRow41 : List Int := [-3,-3,-3,-3,-2,-2,-2,-2,0,0,0,0,-3,-2,-2,-3,-3,-1,-1,-3,-4,-4,-4,-4,0,0,0,0,-3,-3,-3,-3,-4,3,3,-4,-2,-2,-2,-2,0,7,6,0,-4,-2,-2,1,-3,-3,-3,-3,-2,-2,-2,-2,-1,-1,-1,-1,-3,-3,-3,-3]

/-- Row 42 of the hardcoded `cdnsubs_data` table. -/
def cdnsubsRow42 : List Int := [-3,-3,-3,-3,-2,-2,-2,-2,0,0,0,0,-3,-2,-2,-3,-3,-1,-1,-3,-4,-4,-4,-4,0,0,0,0,-3,-3,-3,-3,-4,3,3,-4,-2,-2,-2,-2,0,6,7,0,-4,-2,-2,1,-3,-3,-3,-3,-2,-2,-2,-2,-1,-1,-1,-1,-3,-3,-3,-3]

/-- Row 43 of the hardcoded `cdnsubs_data` table. -/
def cdnsubsRow43 : List Int := [-2,-3,-3,-2,-1,-1,-1,-1,2,2,2,2,-2,-2,-2,-2,-2,-3,-3,-2,-3,-3,-3,-3,4,4,4,4,-2,-2,-2,-2,-4,-1,-1,-4,-2,-2,-2,-2,4,0,0,5,-4,-1,-1,-2,-3,-4,-4,-3,-1,-1,-1,-1,1,1,1,1,-4,-4,-4,-4]

/-- Row 44 of the hardcoded `cdnsubs_data` table. -/
def cdnsubsRow44 : List Int := [-4,-4,-4,-4,-4,-4,-4,-4,-4,-4,-4,-4,-4,-4,-4,-4,-4,-4,-4,-4,-4,-4,-4,-4,-4,-4,-4,-4,-4,-4,-4,-4,0,-4,-4,0,-4,-4,-4,-4,-4,-4,-4,-4,1,-4,-4,-4,-4,-4,-4,-4,-4,-4,-4,-4,-4,-4,-4,-4,-4,-4,-4,-4]

/-- Row 45 of the hardcoded `cdnsubs_data` table. -/
def cdnsubsRow45 : List Int := [-3,-3,-3,-3,-1,-1,-1,-1,-1,-1,-1,-1,-3,-1,-1,-3,-3,-3,-3,-3,-3,-3,-3,-3,-1,-1,-1,-1,-3,-3,-3,-3,-4,-2,-2,-4,-1,-1,-1,-1,-1,-2,-2,-1,-4,10,9,-2,-4,-3,-3,-4,0,0,0,0,-1,-1,-1,-1,-3,-3,-3,-3]

/-- Row 46 of the hardcoded `cdnsubs_data` table. -/
def cdnsubsRow46 : List Int := [-3,-3,-3,-3,-1,-1,-1,-1,-1,-1,-1,-1,-3,-1,-1,-3,-3,-3,-3,-3,-3,-3,-3,-3,-1,-1,-1,-1,-3,-3,-3,-3,-4,-2,-2,-4,-1,-1,-1,-1,-1,-2,-2,-1,-4,9,10,-2,-4,-3,-3,-4,0,0,0,0,-1,-1,-1,-1,-3,-3,-3,-3]

/-- Row 47 of the hardcoded `cdnsubs_data` table. -/
def cdnsubsRow47 : List Int := [-3,-4,-4,-3,-2,-2,-2,-2,-3,-3,-3,-1,-3,-3,-3,-3,-2,-2,-2,-2,-4,-4,-4,-4,-2,-2,-2,-2,-3,-3,-3,-3,-4,2,2,-4,-3,-3,-3,-3,-2,1,1,-2,-4,-2,-2,12,-3,-4,-4,-3,-3,-3,-3,-3,-3,-3,-3,-3,-2,-2,-2,-2]

/-- Row 48 of the hardcoded `cdnsubs_data` table. -/
def cdnsubsRow48 : List Int := [1,0,0,1,-1,-1,-1,-1,-3,-3,-3,-2,0,0,0,0,2,0,0,2,-1,-1,-1,-1,-3,-3,-3,-3,0,0,0,0,-4,-2,-2,-4,0,0,0,0,-3,-3,-3,-3,-4,-4,-4,-3,6,2,2,5,-1,-1,-1,-1,-2,-2,-2,-2,-2,-2,-2,-2]

/-- Row 49 of the hardcoded `cdnsubs_data` table. -/
def cdnsubsRow49 : List Int := [-1,1,1,-1,-1,-1,-1,-1,-3,-3,-3,-3,-2,0,0,-2,0,-1,-1,0,-1,-1,-1,-1,-4,-4,-4,-4,-2,-2,-2,-2,-4,-3,-3,-4,0,0,0,0,-4,-3,-3,-4,-4,-3,-3,-4,2,7,6,2,-2,-2,-2,-2,-3,-3,-3,-3,-1,-1,-1,-1]

/-- Row 50 of the hardcoded `cdnsubs_data` table. -/
def cdnsubsRow50 : List Int := [-1,1,1,-1,-1,-1,-1,-1,-3,-3,-3,-3,-2,0,0,-2,0,-1,-1,0,-1,-1,-1,-1,-4,-4,-4,-4,-2,-2,-2,-2,-4,-3,-3,-4,0,0,0,0,-4,-3,-3,-4,-4,-3,-3,-4,2,6,7,2,-2,-2,-2,-2,-3,-3,-3,-3,-1,-1,-1,-1]

/-- Row 51 of the hardcoded `cdnsubs_data` table. -/
def cdnsubsRow51 : List Int := [1,0,0,1,-1,-1,-1,-1,-3,-3,-3,-2,0,0,0,0,2,0,0,2,-1,-1,-1,-1,-3,-3,-3,-3,0,0,0,0,-4,-2,-2,-4,0,0,0,0,-3,-3,-3,-3,-4,-4,-4,-3,5,2,2,6,-1,-1,-1,-1,-2,-2,-2,-2,-2,-2,-2,-2]

/-- Row 52 of the hardcoded `cdnsubs_data` table. -/
def cdnsubsRow52 : List Int := [-1,-2,-2,-1,0,0,0,0,-1,-1,-1,-1,-1,1,1,-1,-1,-2,-2,-1,-1,-1,-1,-1,-1,-1,-1,-1,-1,-1,-1,-1,-4,-2,-2,-4,1,1,1,1,-1,-2,-2,-1,-4,0,0,-3,-1,-2,-2,-1,5,4,4,4,0,0,0,0,0,0,0,0]

/-- Row 53 of the hardcoded `cdnsubs_data` table. -/
def cdnsubsRow53 : List Int := [-1,-2,-2,-1,0,0,0,0,-1,-1,-1,-1,-1,1,1,-1,-1,-2,-2,-1,-1,-1,-1,-1,-1,-1,-1,-1,-1,-1,-1,-1,-4,-2,-2,-4,1,1,1,1,-1,-2,-2,-1,-4,0,0,-3,-1,-2,-2,-1,4,5,4,4,0,0,0,0,0,0,0,0]

/-- Row 54 of the hardcoded `cdnsubs_data` table. -/
def cdnsubsRow54 : List Int := [-1,-2,-2,-1,0,0,0,0,-1,-1,-1,-1,-1,1,1,-1,-1,-2,-2,-1,-1,-1,-1,-1,-1,-1,-1,-1,-1,-1,-1,-1,-4,-2,-2,-4,1,1,1,1,-1,-2,-2,-1,-4,0,0,-3,-1,-2,-2,-1,4,4,5,4,0,0,0,0,0,0,0,0]

/-- Row 55 of the hardcoded `cdnsubs_data` table. -/
def cdnsubsRow55 : List Int := [-1,-2,-2,-1,0,0,0,0,-1,-1,-1,-1,-1,1,1,-1,-1,-2,-2,-1,-1,-1,-1,-1,-1,-1,-1,-1,-1,-1,-1,-1,-4,-2,-2,-4,1,1,1,1,-1,-2,-2,-1,-4,0,0,-3,-1,-2,-2,-1,4,4,4,5,0,0,0,0,0,0,0,0]

/-- Row 56 of the hardcoded `cdnsubs_data` table. -/
def cdnsubsRow56 : List Int := [-2,-3,-3,-2,0,0,0,0,3,3,3,1,-3,-2,-2,-3,-2,-3,-3,-2,-2,-2,-2,-2,1,1,1,1,-3,-3,-3,-3,-4,-1,-1,-4,-2,-2,-2,-2,1,-1,-1,1,-4,-1,-1,-3,-2,-3,-3,-2,0,0,0,0,5,4,4,4,-3,-3,-3,-3]

/-- Row 57 of the hardcoded `cdnsubs_data` table. -/
def cdnsubsRow57 : List Int := [-2,-3,-3,-2,0,0,0,0,3,3,3,1,-3,-2,-2,-3,-2,-3,-3,-2,-2,-2,-2,-2,1,1,1,1,-3,-3,-3,-3,-4,-1,-1,-4,-2,-2,-2,-2,1,-1,-1,1,-4,-1,-1,-3,-2,-3,-3,-2,0,0,0,0,4,5,4,4,-3,-3,-3,-3]

/-- Row 58 of the hardcoded `cdnsubs_data` table. -/
def cdnsubsRow58 : List Int := [-2,-3,-3,-2,0,0,0,0,3,3,3,1,-3,-2,-2,-3,-2,-3,-3,-2,-2,-2,-2,-2,1,1,1,1,-3,-3,-3,-3,-4,-1,-1,-4,-2,-2,-2,-2,1,-1,-1,1,-4,-1,-1,-3,-2,-3,-3,-2,0,0,0,0,4,4,5,4,-3,-3,-3,-3]

/-- Row 59 of the hardcoded `cdnsubs_data` table. -/
def cdnsubsRow59 : List Int := [-2,-3,-3,-2,0,0,0,0,3,3,3,1,-3,-2,-2,-3,-2,-3,-3,-2,-2,-2,-2,-2,1,1,1,1,-3,-3,-3,-3,-4,-1,-1,-4,-2,-2,-2,-2,1,-1,-1,1,-4,-1,-1,-3,-2,-3,-3,-2,0,0,0,0,4,4,4,5,-3,-3,-3,-3]

/-- Row 60 of the hardcoded `cdnsubs_data` table. -/
def cdnsubsRow60 : List Int := [-2,0,0,-2,-2,-2,-2,-2,-4,-4,-4,-3,-2,0,0,-2,-2,-2,-2,-2,-2,-2,-2,-2,-4,-4,-4,-4,-2,-2,-2,-2,-4,-3,-3,-4,0,0,0,0,-4,-3,-3,-4,-4,-3,-3,-2,-2,-1,-1,-2,0,0,0,0,-3,-3,-3,-3,7,6,6,6]

/-- Row 61 of the hardcoded `cdnsubs_data` table. -/
def cdnsubsRow61 : List Int := [-2,0,0,-2,-2,-2,-2,-2,-4,-4,-4,-3,-2,0,0,-2,-2,-2,-2,-2,-2,-2,-2,-2,-4,-4,-4,-4,-2,-2,-2,-2,-4,-3,-3,-4,0,0,0,0,-4,-3,-3,-4,-4,-3,-3,-2,-2,-1,-1,-2,0,0,0,0,-3,-3,-3,-3,6,7,6,6]

/-- Row 62 of the hardcoded `cdnsubs_data` table. -/
def cdnsubsRow62 : List Int := [-2,0,0,-2,-2,-2,-2,-2,-4,-4,-4,-3,-2,0,0,-2,-2,-2,-2,-2,-2,-2,-2,-2,-4,-4,-4,-4,-2,-2,-2,-2,-4,-3,-3,-4,0,0,0,0,-4,-3,-3,-4,-4,-3,-3,-2,-2,-1,-1,-2,0,0,0,0,-3,-3,-3,-3,6,6,7,6]

/-- Row 63 of the hardcoded `cdnsubs_data` table. -/
def cdnsubsRow63 : List Int := [-2,0,0,-2,-2,-2,-2,-2,-4,-4,-4,-3,-2,0,0,-2,-2,-2,-2,-2,-2,-2,-2,-2,-4,-4,-4,-4,-2,-2,-2,-2,-4,-3,-3,-4,0,0,0,0,-4,-3,-3,-4,-4,-3,-3,-2,-2,-1,-1,-2,0,0,0,0,-3,-3,-3,-3,6,6,6,7]

/-- The hardcoded 64x64 constant `cdnsubs_data` (src/align.cc lines 133-198) as
a list of rows, row-major over `Cdn::index()`. -/
def cdnsubs_data : List (List Int) :=
  [cdnsubsRow0,cdnsubsRow1,cdnsubsRow2,cdnsubsRow3,cdnsubsRow4,cdnsubsRow5,cdnsubsRow6,cdnsubsRow7,cdnsubsRow8,cdnsubsRow9,cdnsubsRow10,cdnsubsRow11,cdnsubsRow12,cdnsubsRow13,cdnsubsRow14,cdnsubsRow15,cdnsubsRow16,cdnsubsRow17,cdnsubsRow18,cdnsubsRow19,cdnsubsRow20,cdnsubsRow21,cdnsubsRow22,cdnsubsRow23,cdnsubsRow24,cdnsubsRow25,cdnsubsRow26,cdnsubsRow27,cdnsubsRow28,cdnsubsRow29,cdnsubsRow30,cdnsubsRow31,cdnsubsRow32,cdnsubsRow33,cdnsubsRow34,cdnsubsRow35,cdnsubsRow36,cdnsubsRow37,cdnsubsRow38,cdnsubsRow39,cdnsubsRow40,cdnsubsRow41,cdnsubsRow42,cdnsubsRow43,cdnsubsRow44,cdnsubsRow45,cdnsubsRow46,cdnsubsRow47,cdnsubsRow48,cdnsubsRow49,cdnsubsRow50,cdnsubsRow51,cdnsubsRow52,cdnsubsRow53,cdnsubsRow54,cdnsubsRow55,cdnsubsRow56,cdnsubsRow57,cdnsubsRow58,cdnsubsRow59,cdnsubsRow60,cdnsubsRow61,cdnsubsRow62,cdnsubsRow63]

/-- The standard genetic code string used to build `StandardTranslationTable`
(aa.cc): codon index k translates to the k-th character. -/
def standardTranslation : List Char :=
  "KNNKTTTTIIIMRSSRQHHQPPPPLLLLRRRR*YY*SSSSLFFL*CCWEDDEAAAAVVVVGGGG".toList

/-- The translation `aa(k)` of codon index k. -/
def aaOfCdn (k : Nat) : Char :=
  standardTranslation.getD k '*'

/-- Model of `print_cdnsubs` (src/align.cc lines 200-216): the derived codon
substitution matrix `BLOSUM62[aa(i)][aa(j)] + (i == j ? 1 : 0)`. -/
def print_cdnsubs : List (List Int) :=
  (List.range 64).map fun i =>
    (List.range 64).map fun j =>
      melem BLOSUM62 (aaIndex (aaOfCdn i)) (aaIndex (aaOfCdn j)) + (if i = j then 1 else 0)

/-! ## Codon packing and unpacking (cdn.cc / cdn.h)

`mm256_pack_cdns` packs bits 1-2 of each ASCII nucleotide byte into one codon
byte `((a & 6) << 3) | ((b & 6) << 1) | ((c & 6) >> 1) + 0x30`; the AVX2
shuffles compute exactly this per triple. -/

/-- One packed codon byte from three nucleotide bytes (`Cdn::Cdn(Nt,Nt,Nt)`
and the SIMD kernel agree on this formula). -/
def packCdnChar (a b c : Char) : Char :=
  Char.ofNat ((((a.toNat &&& 6) <<< 3) ||| ((b.toNat &&& 6) <<< 1) ||| ((c.toNat &&& 6) >>> 1)) + 48)

/-- Scalar semantics of `mm256_pack_cdns` followed by `resize(n/3)`: pack
consecutive nucleotide triples, dropping a trailing partial triple. -/
def mm256_pack_cdns : List Char → List Char
  | a :: b :: c :: rest => packCdnChar a b c :: mm256_pack_cdns rest
  | _ => []

/-- `Cdn::LUT = {Nt::A, Nt::C, Nt::T, Nt::G}`. -/
def cdnLUT : Nat → Char
  | 0 => 'A'
  | 1 => 'C'
  | 2 => 'T'
  | _ => 'G'

/-- `Cdn::to_nts()`: decode one codon byte into three nucleotides. -/
def cdnToNts (c : Char) : List Char :=
  let x := c.toNat - 48
  [cdnLUT ((x >>> 4) &&& 3), cdnLUT ((x >>> 2) &&& 3), cdnLUT (x &&& 3)]

/-- `Cdns::to_nts()` (cdn.cc lines 228-237): concatenate the decodings. -/
def Cdns_to_nts : List Char → List Char
  | [] => []
  | c :: cs => cdnToNts c ++ Cdns_to_nts cs

/-! ## UMI consensus and collapse (src/mainfunctions.cc) -/

/-- `struct Choice` of `build_consensus_sequence` (occurrence count and best
quality seen for one nucleotide at one position). -/
structure Choice where
  nt       : Char
  occurs   : Nat
  max_qual : Char
  deriving DecidableEq, Repr

/-- `Choice::operator<`: compare by `occurs`, then by `max_qual`. -/
def choiceLt (a b : Choice) : Bool :=
  a.occurs < b.occurs || (a.occurs == b.occurs && a.max_qual < b.max_qual)

/-- `std::max_element` over the remaining candidates: replace the current
best only on strict `<`, so the first of equal maxima wins. -/
def maxElemC : Choice → List Choice → Choice
  | best, [] => best
  | best, c :: cs => maxElemC (if choiceLt best c then c else best) cs

/-- `make_default_choices()`: the five zeroed candidates ordered by
`Nt::index()` (A=0, C=1, T=2, G=3, N=4). -/
def defaultChoices : List Choice :=
  [⟨'A', 0, Char.ofNat 0⟩, ⟨'C', 0, Char.ofNat 0⟩, ⟨'T', 0, Char.ofNat 0⟩,
   ⟨'G', 0, Char.ofNat 0⟩, ⟨'N', 0, Char.ofNat 0⟩]

/-- Replace the element at an index (no-op when out of range). -/
def modifyIdx : List α → Nat → (α → α) → List α
  | [], _, _ => []
  | x :: xs, 0, f => f x :: xs
  | x :: xs, n + 1, f => x :: modifyIdx xs n f

/-- Record one observed base/quality: `ch.occurs += 1` and keep the larger
quality byte. -/
def bumpChoice (q : Char) (ch : Choice) : Choice :=
  ⟨ch.nt, ch.occurs + 1, if ch.max_qual < q then q else ch.max_qual⟩

/-- Tally one read into the per-position candidate table; the loop runs to
`min(choices.size(), rd.size())`. -/
def tallyRead : List (List Choice) → List Char → List Char → List (List Choice)
  | ch :: cs, d :: ds, q :: qs =>
    modifyIdx ch (ntIndex d) (bumpChoice q) :: tallyRead cs ds qs
  | chs, _, _ => chs

/-- Tally every read of a group. -/
def tallyReads (reads : List Read) (choices : List (List Choice)) : List (List Choice) :=
  reads.foldl (fun acc rd => tallyRead acc rd.dna rd.qual) choices

/-- The consensus base at one position: `max_element` over the five
candidates starting from the `A` slot. -/
def consensusAt (chs : List Choice) : Choice :=
  maxElemC (chs.headD ⟨'A', 0, Char.ofNat 0⟩) (chs.drop 1)

/-- Insertion into a length-descending list (model of the
`sort_by_size_desc` ordering; `std::sort` leaves the relative order of
equal lengths unspecified, this model keeps it stable). -/
def insertDesc (r : Read) : List Read → List Read
  | [] => [r]
  | x :: xs => if x.dna.length < r.dna.length then r :: x :: xs else x :: insertDesc r xs

/-- Sort reads by descending sequence length. -/
def sortBySizeDesc (reads : List Read) : List Read :=
  reads.foldr insertDesc []

/-- `size_counts`: per-length occurrence counts, in first-encounter order
(the C++ `unordered_map` iterates in an unspecified order; the orders agree
whenever the modal length is unique). -/
def bumpSize : List (Nat × Nat) → Nat → List (Nat × Nat)
  | [], s => [(s, 1)]
  | (a, c) :: rest, s => if a = s then (a, c + 1) :: rest else (a, c) :: bumpSize rest s

/-- Collect the length counts of a group. -/
def sizeCounts (reads : List Read) : List (Nat × Nat) :=
  reads.foldl (fun acc rd => bumpSize acc rd.dna.length) []

/-- `std::max_element` by count (first of equal maxima wins). -/
def maxBySnd : (Nat × Nat) → List (Nat × Nat) → (Nat × Nat)
  | best, [] => best
  | best, x :: xs => maxBySnd (if best.2 < x.2 then x else best) xs

/-- The modal read length of a group. -/
def modalSize (reads : List Read) : Nat :=
  let counts := sizeCounts reads
  (maxBySnd (counts.headD (0, 0)) (counts.drop 1)).1

/-- Model of `build_consensus_sequence` (src/mainfunctions.cc lines
332-397); returns the single read the group is resized to. -/
def build_consensus_sequence (reads : List Read) (minG : Nat) (ragged_ends : Bool) : Read :=
  if ragged_ends then
    let sorted := sortBySizeDesc reads
    let len := (sorted.getD (minG - 1) emptyRead).dna.length
    let tal := tallyReads sorted (List.replicate len defaultChoices)
    let front := sorted.headD emptyRead
    { front with
      umi_group_size := reads.length
      dna  := tal.map fun chs => (consensusAt chs).nt
      qual := tal.map fun chs => (consensusAt chs).max_qual }
  else
    let modal := modalSize reads
    let contributing := reads.filter fun rd => rd.dna.length = modal
    let tal := tallyReads contributing (List.replicate modal defaultChoices)
    let front := reads.headD emptyRead
    { front with
      umi_group_size := contributing.length
      dna  := tal.map fun chs => (consensusAt chs).nt
      qual := tal.map fun chs => (consensusAt chs).max_qual }

/-- The three `ParseLog` counters touched by one UMI group. -/
structure GroupLog where
  filter_umi_group_size_too_small : Nat
  filter_duplicate_umi : Nat
  filter_invalid_chars : Nat
  deriving DecidableEq, Repr

/-- Per-group body of the `build_consensus` worker in `umi_collapse`
(src/mainfunctions.cc lines 421-448): returns the emitted consensus read (if
the group survives) and the counter increments. -/
def processGroup (group : List Read) (minG : Nat) (ragged_ends : Bool) :
    Option Read × GroupLog :=
  let pre := group.length
  if pre < minG then (none, ⟨pre, 0, 0⟩)
  else
    let g1 := if 1 < pre then [build_consensus_sequence group minG ragged_ends] else group
    match g1.head? with
    | none => (none, ⟨0, 0, 0⟩)
    | some front =>
      if front.umi_group_size < minG then (none, ⟨pre, 0, 0⟩)
      else if front.dna.contains 'N' then (none, ⟨0, 0, 1⟩)
      else (some front, ⟨0, pre - g1.length, 0⟩)

/-! ## UMI extractor (src/umi.cc)

The constructor compiles the reference into a regex pattern string; matching
delegates to `std::regex_search` with `std::regex::icase`, modelled here by
its documented semantics on this pattern fragment: single-character items,
leftmost match, capture groups of `.`-repeats. -/

/-- The pattern-building loop of `UMIExtractor::UMIExtractor` with its
`capture` flag; a trailing open group is closed at the end. -/
def buildPat : List Char → Bool → List Char
  | [], cap => if cap then [')'] else []
  | c :: cs, true =>
    if c = 'n' then '.' :: buildPat cs true
    else ')' :: (if c = 'N' then '.' else c.toUpper) :: buildPat cs false
  | c :: cs, false =>
    if c = 'n' then '(' :: '.' :: buildPat cs true
    else (if c = 'N' then '.' else c.toUpper) :: buildPat cs false

/-- Items of the compiled pattern: a literal, a wildcard, or a capture group
of `n` wildcards. -/
inductive PItem where
  | lit (c : Char)
  | dot
  | grp (n : Nat)
  deriving DecidableEq, Repr

/-- Parse the pattern string produced by `buildPat` into items; the `Option`
state is `some n` inside a group that has accumulated `n` dots so far. -/
def parsePatAux : List Char → Option Nat → List PItem
  | [], none => []
  | [], some n => [.grp n]
  | '(' :: rest, none => parsePatAux rest (some 0)
  | ')' :: rest, some n => .grp n :: parsePatAux rest none
  | '.' :: rest, some n => parsePatAux rest (some (n + 1))
  | '.' :: rest, none => .dot :: parsePatAux rest none
  | c :: rest, none => .lit c :: parsePatAux rest none
  | c :: rest, some n => .grp n :: .lit c :: parsePatAux rest none

/-- Parse a whole pattern string (a `(` opens a capture group of dots closed
by `)`). -/
def parsePat (s : List Char) : List PItem := parsePatAux s none

/-- Number of input characters one item consumes. -/
def itemLen : PItem → Nat
  | .lit _ => 1
  | .dot => 1
  | .grp n => n

/-- Total match length of an item list. -/
def itemsLen (items : List PItem) : Nat :=
  (items.map itemLen).sum

/-- Number of capture groups. -/
def countGroups : List PItem → Nat
  | [] => 0
  | .grp _ :: ps => countGroups ps + 1
  | _ :: ps => countGroups ps

/-- Whether the items match a prefix of `xs` (case-insensitive literals, as
compiled with `std::regex::icase`). -/
def matchesHere : List PItem → List Char → Bool
  | [], _ => true
  | .lit c :: ps, x :: xs => x.toUpper == c.toUpper && matchesHere ps xs
  | .dot :: ps, _ :: xs => matchesHere ps xs
  | .grp n :: ps, xs => n ≤ xs.length && matchesHere ps (xs.drop n)
  | _, [] => false

/-- The concatenation of the capture groups of a match starting here
(`result.barcode += match[i]` for `i = 1..`). -/
def capturesHere : List PItem → List Char → List Char
  | .lit _ :: ps, _ :: xs => capturesHere ps xs
  | .dot :: ps, _ :: xs => capturesHere ps xs
  | .grp n :: ps, xs => xs.take n ++ capturesHere ps (xs.drop n)
  | _, _ => []

/-- Try to match at each successive offset, returning the first hit. -/
def searchFrom (items : List PItem) : List Char → Nat → Option Nat
  | [], o => if matchesHere items [] then some o else none
  | x :: xs, o => if matchesHere items (x :: xs) then some o else searchFrom items xs (o + 1)

/-- `std::regex_search`: the leftmost offset at which the pattern matches. -/
def searchLeftmost (items : List PItem) (input : List Char) : Option Nat :=
  searchFrom items input 0

/-- `struct ExtractedUMI` (a found match; `none` models `length == 0`). -/
structure ExtractedUMI where
  barcode : List Char
  from_offset : Nat
  length : Nat
  deriving DecidableEq, Repr

/-- Model of `UMIExtractor::operator()` applied to the extractor compiled
from `ref` (src/umi.cc lines 5-52). -/
def UMIExtractor_run (ref input : List Char) : Option ExtractedUMI :=
  let items := parsePat (buildPat ref false)
  match searchLeftmost items input with
  | none => none
  | some o => some ⟨capturesHere items (input.drop o), o, itemsLen items⟩

/-- Specification-side count of maximal runs of lowercase `n`. -/
def nRunsAux : List Char → Bool → Nat
  | [], _ => 0
  | c :: cs, prevN => (if c = 'n' && !prevN then 1 else 0) + nRunsAux cs (c = 'n')

/-- Number of maximal `n`-runs of a reference. -/
def nRuns (s : List Char) : Nat := nRunsAux s false

/-- The reference (literal at non-wildcard positions, case-insensitively)
occurs at offset `o` of the input. -/
def refOccursAt (ref input : List Char) (o : Nat) : Bool :=
  decide (o + ref.length ≤ input.length) &&
  (List.zip ref ((input.drop o).take ref.length)).all
    fun p => p.1 == 'n' || p.1 == 'N' || p.2.toUpper == p.1.toUpper

/-- Direct semantics of matching the compiled reference against a prefix of
`xs`: wildcards at `n`/`N`, case-insensitive literals elsewhere. -/
def refMatch : List Char → List Char → Bool
  | [], _ => true
  | c :: cs, x :: xs => (c == 'n' || c == 'N' || x.toUpper == c.toUpper) && refMatch cs xs
  | _ :: _, [] => false

/-- The bases of a window at the reference's `n`-positions, in order. -/
def nPosBases (ref window : List Char) : List Char :=
  (List.zip ref window).filterMap fun p => if p.1 = 'n' then some p.2 else none

/-! ## Template database trimming (src/abs.cc, `TemplateDatabase::trim`) -/

/-- `struct TemplateDatabaseEntry`. -/
structure TemplateDatabaseEntry where
  label : List Char
  cdns  : List Char
  aas   : List Char
  deriving DecidableEq, Repr

/-- `PolymerBase::exo(l, r)`: trim `l` monomers from the left and `r` from
the right. -/
def exoList (l r : Nat) (xs : List α) : List α :=
  (xs.drop l).take (xs.length - l - r)

/-- Result of `TemplateDatabase::trim`: either the trimmed entries or the
label of the entry whose `ExcessiveTrimmingError` aborts the run. -/
inductive TrimResult where
  | ok (entries : List TemplateDatabaseEntry)
  | err (label : List Char)
  deriving DecidableEq, Repr

/-- The successful trim of one entry (`exo` on `aas`, and on `cdns` when it
is non-empty). -/
def trimEntry (l r : Nat) (e : TemplateDatabaseEntry) : TemplateDatabaseEntry :=
  { e with
    aas := exoList l r e.aas
    cdns := if e.cdns.isEmpty then e.cdns else exoList l r e.cdns }

/-- Model of `TemplateDatabase::trim` (src/abs.cc lines 168-184): entries in
order, the first entry with `total >= entry.aas.size()` raises
`ExcessiveTrimmingError` (the error carries its label). -/
def TemplateDatabase_trim (l r : Nat) :
    List TemplateDatabaseEntry → TrimResult
  | [] => .ok []
  | e :: es =>
    if e.aas.length ≤ l + r then .err e.label
    else
      match TemplateDatabase_trim l r es with
      | .err s => .err s
      | .ok rest => .ok (trimEntry l r e :: rest)

/-- Whether a trim completed without raising. -/
def trimOk : TrimResult → Bool
  | .ok _ => true
  | .err _ => false

/-! ## Miscellaneous specification-side helpers -/

/-- Number of mismatching positions between two equal-length byte strings. -/
def hammingMismatches (xs ys : List Char) : Nat :=
  (List.zipWith (fun x y => if x = y then 0 else 1) xs ys).sum

/-- The in-order exact-overlap predicate: the length-`L` suffix of `a`
equals the length-`L` prefix of `b`. -/
def exactOv (a b : List Char) (L : Nat) : Prop :=
  L ≤ a.length ∧ L ≤ b.length ∧ a.drop (a.length - L) = b.take L

instance (a b : List Char) (L : Nat) : Decidable (exactOv a b L) := by
  unfold exactOv; infer_instance

/-! ## Parameter validation (src/main.cc lines 82-85) -/

/-- Model of the argument check `if (p.min_overlap < p.max_mismatches)`:
returns `true` exactly when the run aborts with
"max_mismatches must be less than min_overlap". -/
def overlap_args_abort (min_overlap max_mismatches : Nat) : Bool :=
  decide (min_overlap < max_mismatches)

/-- The overlap scanner's dynamic-programming table written as a function:
`diagT (i+1) (j+1) = diagT i j + (a[j] == b[i])`, zero on the borders. -/
def diagT (a b : List Char) : Nat → Nat → Nat
  | 0, _ => 0
  | _ + 1, 0 => 0
  | i + 1, j + 1 => diagT a b i j + (if a.getD j ' ' = b.getD i ' ' then 1 else 0)

/-- Number of equal positions of two equal-length strings (extra tail
ignored). -/
def matchCnt : List Char → List Char → Nat
  | x :: xs, y :: ys => (if x = y then 1 else 0) + matchCnt xs ys
  | _, _ => 0

/-- Invariant of the row loop after `i` rows, `K = 0`: either no in-order
exact overlap of length in `[1, i]` exists and the maximum is untouched, or
the maximum records the largest such overlap length. -/
def RowInv (a b : List Char) (i mo mr : Nat) : Prop :=
  (mo = 0 ∧ mr = 0 ∧ ∀ L, 1 ≤ L → L ≤ i → ¬ exactOv a b L) ∨
  (mo = mr + 1 ∧ mo ≤ i ∧ exactOv a b mo ∧ ∀ L, mo < L → L ≤ i → ¬ exactOv a b L)

/-- Invariant of the column loop after `c` columns, `K = 0`: the running
maximum dominates every in-order exact overlap and every mirrored exact
overlap of length at most `c`. -/
def ColInv (a b : List Char) (c mo mr : Nat) : Prop :=
  (mo = 0 ∧ mr = 0 ∧ (∀ L, 1 ≤ L → ¬ exactOv a b L) ∧
    ∀ L, 1 ≤ L → L ≤ c → ¬ exactOv b a L) ∨
  (mo = mr + 1 ∧ (exactOv a b mo ∨ exactOv b a mo) ∧
    (∀ L, mo < L → ¬ exactOv a b L) ∧ ∀ L, mo < L → L ≤ c → ¬ exactOv b a L)

/-!
# Theorems
-/

/-- Claim C1: `Read::assemble` on the pair fw=`ACGT`/`IIII`, rv=`TCGT`/`IIII`
with `min_overlap = 2`, `max_mismatches = 1` drops the pair, even though the
reverse-complemented reverse read is `ACGA`, whose full-length overlap with
the forward read has exactly 1 mismatch (≤ max_mismatches) and length 4
(≥ min_overlap).  The source runs the overlap scan with the scanner's default
`max_mismatches = 0` instead of the caller's bound, so the claimed behaviour
("permitting up to max_mismatches mismatches") never happens. -/
theorem claim1_assemble_drops_acceptable_overlap :
    Read.assemble ⟨[], 1, "ACGT".toList, "IIII".toList⟩
                  ⟨[], 1, "TCGT".toList, "IIII".toList⟩ 2 1 = emptyRead ∧
    reverse_complement "TCGT".toList = "ACGA".toList ∧
    hammingMismatches "ACGT".toList "ACGA".toList = 1 ∧
    (1 : Nat) ≤ 1 ∧ (2 : Nat) ≤ 4 := by decide

/-- Claim C2 (counterexample): with `A = "A"`, `B = "GA"`, `K = 1` the scan
returns `overlap = 2`, which exceeds `min(|A|,|B|) = 1`, so the returned
overlap is not the claimed maximum `L ≤ min(|A|,|B|)`. -/
theorem claim2_counterexample :
    (find_overlapv "A".toList "GA".toList 1).overlap = 2 ∧
    ¬ 2 ≤ min "A".toList.length "GA".toList.length := by decide

set_option maxRecDepth 8000 in
/-- Claim C3: aligning query `MKTAYIA` to template `MKTAYIAK` with BLOSUM62
and gap penalty 4 yields aligned query `MKTAYIA-` and a score equal to the
self-alignment score of the query (the sum of the BLOSUM62 diagonal entries
for M, K, T, A, Y, I, A), which is 34. -/
theorem claim3_simple_alignment :
    nw_align aaOps "MKTAYIA".toList "MKTAYIAK".toList BLOSUM62 4 false =
      ⟨nw_self_align_score aaOps "MKTAYIA".toList BLOSUM62, "MKTAYIA-".toList⟩ ∧
    nw_self_align_score aaOps "MKTAYIA".toList BLOSUM62 = 34 := by decide

set_option maxHeartbeats 4000000 in
/-- Claim C5: the hardcoded 64x64 codon substitution table `cdnsubs_data`
equals the matrix derived by `print_cdnsubs`, i.e. at every pair of codon
indices `(i, j)` it is `BLOSUM62[aa(i)][aa(j)] + (i == j ? 1 : 0)` under the
standard genetic code. -/
theorem claim5_cdnsubs_refinement : cdnsubs_data = print_cdnsubs := by decide

/-- Claim C6 (counterexample): a surviving strict-mode group of three reads,
two of length 4 and one of length 5, contributes 2 reads to the consensus
(`umi_group_size = 2`), but `filter_duplicate_umi` is incremented by
`3 - 1 = 2`, not by `original_size - contributed = 3 - 2 = 1`. -/
theorem claim6_counterexample :
    processGroup [⟨"b".toList, 1, "AAAA".toList, "IIII".toList⟩,
                  ⟨"b".toList, 1, "AAAA".toList, "IIII".toList⟩,
                  ⟨"b".toList, 1, "AAAAA".toList, "IIIII".toList⟩] 1 false
      = (some ⟨"b".toList, 2, "AAAA".toList, "IIII".toList⟩, ⟨0, 2, 0⟩) ∧
    (2 : Nat) ≠ 3 - 2 := by decide

/-- Claim C7 (counterexample): for reference `ACnn` and input `ACACGT`, the
reference occurs at offset 2 (with bases `GT` at the `n`-positions), but the
extractor returns the leftmost regex match at offset 0 with barcode `AC`. -/
theorem claim7_counterexample :
    UMIExtractor_run "ACnn".toList "ACACGT".toList = some ⟨"AC".toList, 0, 4⟩ ∧
    refOccursAt "ACnn".toList "ACACGT".toList 2 = true ∧
    (0 : Nat) ≠ 2 := by decide

/-- Claim C8: with `min_overlap = 5` and `max_mismatches = 5` the constraint
`max_mismatches < min_overlap` is violated (5 ≥ 5), yet the check
`p.min_overlap < p.max_mismatches` does not abort — contradicting the
diagnostic it would print ("max_mismatches must be less than min_overlap"). -/
theorem claim8_equality_not_aborted :
    overlap_args_abort 5 5 = false ∧ (5 : Nat) ≤ 5 := by decide

/-- Claim C9 (counterexample): trimming 1+1 residues from a database whose
only entry has exactly 2 amino acids raises `ExcessiveTrimmingError` even
though the trim does not remove *more* residues than the entry contains. -/
theorem claim9_counterexample :
    TemplateDatabase_trim 1 1 [⟨"x".toList, [], "MK".toList⟩] = .err "x".toList ∧
    ¬ "MK".toList.length < 1 + 1 := by decide

theorem getD_replicate {α : Type _} (m n : Nat) (x d : α) (h : n < m) :
    (List.replicate m x).getD n d = x := by
  induction m generalizing n with
  | zero => omega
  | succ m ih =>
    cases n with
    | zero => simp [List.replicate]
    | succ n => simpa [List.replicate] using ih n (by omega)

theorem getLastD_cons_replicate (c x d : Cell) (m : Nat) :
    (c :: List.replicate m x).getLastD d = if m = 0 then c else x := by
  induction m with
  | zero => simp
  | succ m ih =>
    simp only [List.replicate, Nat.succ_ne_zero, if_false]
    rcases Nat.eq_zero_or_pos m with h | h
    · subst h; simp
    · have : (x :: List.replicate m x).getLastD d = x := by
        have := ih
        cases m with
        | zero => simp
        | succ k => simpa [List.replicate, Nat.succ_ne_zero] using ih
      simpa [List.getLastD_cons] using this

theorem buildString_row0 (ops : MonomerOps) (q : List Char) (m : Nat) :
    ∀ n fuel, n ≤ m → n ≤ fuel →
      buildString ops [nwRow0 m] q fuel 0 n = List.replicate n ops.gapChar := by
  intro n
  induction n with
  | zero =>
    intro fuel _ _
    cases fuel with
    | zero => rfl
    | succ f => simp [buildString]
  | succ n ih =>
    intro fuel hm hf
    cases fuel with
    | zero => omega
    | succ f =>
      have hmove :
          (([nwRow0 m].getD 0 []).getD (n + 1) ⟨0, .MATCH⟩).move = Move.GAP_Q := by
        have h1 : ([nwRow0 m].getD 0 []) = nwRow0 m := rfl
        rw [h1]
        show ((nwRow0 m).getD (n + 1) ⟨0, .MATCH⟩).move = Move.GAP_Q
        unfold nwRow0
        have h2 : ((⟨0, .MATCH⟩ : Cell) :: List.replicate m ⟨0, .GAP_Q⟩).getD (n + 1) ⟨0, .MATCH⟩
            = (List.replicate m (⟨0, .GAP_Q⟩ : Cell)).getD n ⟨0, .MATCH⟩ := by
          simp [List.getD_cons_succ]
        rw [h2, getD_replicate m n _ _ (by omega)]
      show buildString ops [nwRow0 m] q (f + 1) 0 (n + 1) = _
      unfold buildString
      simp only [Nat.zero_add, Nat.succ_ne_zero, if_false]
      rw [hmove]
      have : n + 1 - 1 = n := by omega
      rw [this, ih f (by omega) (by omega)]
      rfl

set_option maxHeartbeats 800000 in
/-- Claim C10: running `nw_align` with an empty query returns score 0, and
the traceback produces `|t|` gap characters (`gap_char<M>` is `'-'` for
amino acids and nucleotides, a space for codons). -/
theorem claim10_empty_query (ops : MonomerOps) (t : List Char)
    (subs : List (List Int)) (gapp : Int) :
    nw_align ops [] t subs gapp false =
      ⟨0, List.replicate t.length ops.gapChar⟩ ∧
    aaOps.gapChar = '-' ∧ ntOps.gapChar = '-' ∧ cdnOps.gapChar = ' ' := by
  refine ⟨?_, rfl, rfl, rfl⟩
  unfold nw_align nwTrace nwRows
  simp only [List.length_nil]
  have hscore : (([nwRow0 t.length].getLastD []).getLastD ⟨0, .MATCH⟩).score = 0 := by
    have h1 : ([nwRow0 t.length].getLastD []) = nwRow0 t.length := by simp
    rw [h1]
    unfold nwRow0
    rw [getLastD_cons_replicate]
    rcases Nat.eq_zero_or_pos t.length with h | h
    · simp [h]
    · simp [Nat.pos_iff_ne_zero.mp h]
  have hbuild : buildString ops [nwRow0 t.length] [] (0 + t.length) 0 t.length
      = List.replicate t.length ops.gapChar :=
    buildString_row0 ops [] t.length t.length (0 + t.length) (Nat.le_refl _) (by omega)
  simp only [hscore, hbuild, if_false, Bool.false_eq_true]
  rw [List.reverse_replicate]

theorem cdnToNts_packCdnChar (a b c : Char)
    (ha : a ∈ "ACGT".toList) (hb : b ∈ "ACGT".toList) (hc : c ∈ "ACGT".toList) :
    cdnToNts (packCdnChar a b c) = [a, b, c] := by
  fin_cases ha <;> fin_cases hb <;> fin_cases hc <;> decide

theorem pack_cdns_spec :
    ∀ x : List Char, x.length % 3 = 0 → (∀ c ∈ x, c ∈ "ACGT".toList) →
      Cdns_to_nts (mm256_pack_cdns x) = x ∧
      (mm256_pack_cdns x).length = x.length / 3 ∧
      ∀ k, k < x.length / 3 →
        (mm256_pack_cdns x).getD k 'A' =
          packCdnChar (x.getD (3 * k) 'A') (x.getD (3 * k + 1) 'A') (x.getD (3 * k + 2) 'A')
  | [], _, _ => by
    refine ⟨rfl, rfl, ?_⟩
    intro k hk
    simp at hk
  | [a], h, _ => by simp [List.length] at h
  | [a, b], h, _ => by simp [List.length] at h
  | a :: b :: c :: rest, h, hmem => by
    have hrest : rest.length % 3 = 0 := by
      simp only [List.length_cons] at h
      omega
    have hmemr : ∀ d ∈ rest, d ∈ "ACGT".toList := fun d hd => hmem d (by simp [hd])
    obtain ⟨ih1, ih2, ih3⟩ := pack_cdns_spec rest hrest hmemr
    have ha : a ∈ "ACGT".toList := hmem a (by simp)
    have hb : b ∈ "ACGT".toList := hmem b (by simp)
    have hc : c ∈ "ACGT".toList := hmem c (by simp)
    have hpack : mm256_pack_cdns (a :: b :: c :: rest)
        = packCdnChar a b c :: mm256_pack_cdns rest := rfl
    refine ⟨?_, ?_, ?_⟩
    · rw [hpack]
      show cdnToNts (packCdnChar a b c) ++ Cdns_to_nts (mm256_pack_cdns rest)
          = a :: b :: c :: rest
      rw [cdnToNts_packCdnChar a b c ha hb hc, ih1]
      rfl
    · rw [hpack]
      simp only [List.length_cons, ih2]
      omega
    · intro k hk
      rw [hpack]
      cases k with
      | zero => rfl
      | succ k =>
        have hk2 : k < rest.length / 3 := by
          simp only [List.length_cons] at hk
          omega
        have e0 : (a :: b :: c :: rest).getD (3 * (k + 1)) 'A' = rest.getD (3 * k) 'A' := by
          have h : 3 * (k + 1) = 3 * k + 1 + 1 + 1 := by ring
          rw [h]; simp only [List.getD_cons_succ]
        have e1 : (a :: b :: c :: rest).getD (3 * (k + 1) + 1) 'A'
            = rest.getD (3 * k + 1) 'A' := by
          have h : 3 * (k + 1) + 1 = 3 * k + 1 + 1 + 1 + 1 := by ring
          rw [h]; simp only [List.getD_cons_succ]
        have e2 : (a :: b :: c :: rest).getD (3 * (k + 1) + 2) 'A'
            = rest.getD (3 * k + 2) 'A' := by
          have h : 3 * (k + 1) + 2 = 3 * k + 2 + 1 + 1 + 1 := by ring
          rw [h]; simp only [List.getD_cons_succ]
        rw [e0, e1, e2]
        simp only [List.getD_cons_succ]
        exact ih3 k hk2

/-- Claim C4: for every nucleotide sequence over `{A,C,G,T}` whose length is
divisible by 3, packing into codons and unpacking is the identity
(`Cdns(x).to_nts() == x`), the packed length is `len(x)/3`, and the k-th
codon encodes the nucleotides at positions `3k, 3k+1, 3k+2`. -/
theorem claim4_codon_roundtrip (x : List Char) (h3 : x.length % 3 = 0)
    (hx : ∀ c ∈ x, c ∈ "ACGT".toList) :
    Cdns_to_nts (mm256_pack_cdns x) = x ∧
    (mm256_pack_cdns x).length = x.length / 3 ∧
    ∀ k, k < x.length / 3 →
      (mm256_pack_cdns x).getD k 'A' =
        packCdnChar (x.getD (3 * k) 'A') (x.getD (3 * k + 1) 'A') (x.getD (3 * k + 2) 'A') :=
  pack_cdns_spec x h3 hx

/-- Witness for claim C4 at `x = "ATGAAATAA"` (spec scenario 4). -/
theorem claim4_witness :
    "ATGAAATAA".toList.length % 3 = 0 ∧
    Cdns_to_nts (mm256_pack_cdns "ATGAAATAA".toList) = "ATGAAATAA".toList :=
  ⟨by decide, (claim4_codon_roundtrip "ATGAAATAA".toList (by decide) (by decide)).1⟩

/-- Claim C9 (amended): `TemplateDatabase::trim` raises iff the requested
total `left + right` is at least (not just strictly more than) the length of
some entry's amino-acid sequence; when it does not raise, every entry's
amino acids are trimmed by `left`/`right`, and its codons likewise whenever
non-empty. -/
theorem claim9_trim (l r : Nat) (es : List TemplateDatabaseEntry) :
    (trimOk (TemplateDatabase_trim l r es) = true ↔ ∀ e ∈ es, l + r < e.aas.length) ∧
    (∀ es2, TemplateDatabase_trim l r es = .ok es2 → es2 = es.map (trimEntry l r)) := by
  induction es with
  | nil =>
    constructor
    · simp [TemplateDatabase_trim, trimOk]
    · intro es2 heq
      cases heq
      simp
  | cons e es ih =>
    obtain ⟨ih1, ih2⟩ := ih
    by_cases h : e.aas.length ≤ l + r
    · constructor
      · constructor
        · intro hok
          simp only [TemplateDatabase_trim, if_pos h] at hok
          simp [trimOk] at hok
        · intro hall
          have := hall e (by simp)
          omega
      · intro es2 heq
        simp only [TemplateDatabase_trim, if_pos h] at heq
        cases heq
    · have hlt : l + r < e.aas.length := by omega
      cases hrec : TemplateDatabase_trim l r es with
      | err s =>
        constructor
        · constructor
          · intro hok
            simp only [TemplateDatabase_trim, if_neg h, hrec] at hok
            simp [trimOk] at hok
          · intro hall
            have htl : trimOk (TemplateDatabase_trim l r es) = true :=
              ih1.mpr fun e2 he2 => hall e2 (by simp [he2])
            rw [hrec] at htl
            simp [trimOk] at htl
        · intro es2 heq
          simp only [TemplateDatabase_trim, if_neg h, hrec] at heq
          cases heq
      | ok rest =>
        constructor
        · constructor
          · intro _ e2 he2
            rcases List.mem_cons.mp he2 with rfl | hmem
            · exact hlt
            · exact (ih1.mp (by rw [hrec]; rfl)) e2 hmem
          · intro _
            simp only [TemplateDatabase_trim, if_neg h, hrec, trimOk]
        · intro es2 heq
          simp only [TemplateDatabase_trim, if_neg h, hrec] at heq
          cases heq
          simp only [List.map]
          rw [ih2 rest hrec]

/-- Witness for claim C9: trimming (1,1) from a 3-residue entry succeeds and
shortens both sequences. -/
theorem claim9_witness :
    ([⟨"x".toList, "05;".toList, "MKV".toList⟩] : List TemplateDatabaseEntry).map (trimEntry 1 1)
      = [⟨"x".toList, "5".toList, "K".toList⟩] ∧
    trimOk (TemplateDatabase_trim 1 1 [⟨"x".toList, "05;".toList, "MKV".toList⟩]) = true := by
  constructor
  · exact ((claim9_trim 1 1 [⟨"x".toList, "05;".toList, "MKV".toList⟩]).2
      [⟨"x".toList, "5".toList, "K".toList⟩] (by decide)).symm
  · exact (claim9_trim 1 1 [⟨"x".toList, "05;".toList, "MKV".toList⟩]).1.mpr (by decide)

/-- Claim C6 (amended): for every UMI group that survives collapse, the
`filter_duplicate_umi` counter is incremented by `original_size - 1` (the
group always collapses to a single emitted read), not by
`original_size - contributed`. -/
theorem claim6_duplicate_umi_accounting (group : List Read) (minG : Nat)
    (ragged : Bool) (rd : Read) (log : GroupLog)
    (h : processGroup group minG ragged = (some rd, log)) :
    log.filter_duplicate_umi = group.length - 1 := by
  simp only [processGroup] at h
  by_cases hsmall : group.length < minG
  · rw [if_pos hsmall] at h
    simp at h
  · rw [if_neg hsmall] at h
    by_cases hp : 1 < group.length
    · rw [if_pos hp] at h
      simp only [List.head?] at h
      split at h
      · simp at h
      · split at h
        · simp at h
        · injection h with h1 h2
          rw [← h2]
          simp
    · rw [if_neg hp] at h
      cases group with
      | nil => simp [List.head?] at h
      | cons g0 gs =>
        have hgs : gs = [] := by
          cases gs with
          | nil => rfl
          | cons x xs => simp [List.length_cons] at hp
        subst hgs
        simp only [List.head?] at h
        split at h
        · simp at h
        · split at h
          · simp at h
          · injection h with h1 h2
            rw [← h2]
            simp

/-- Witness for claim C6: a surviving group of two identical reads bumps
`filter_duplicate_umi` by `2 - 1 = 1`. -/
theorem claim6_witness :
    (processGroup [⟨"b".toList, 1, "AAA".toList, "III".toList⟩,
                   ⟨"b".toList, 1, "AAA".toList, "III".toList⟩] 1 false).2.filter_duplicate_umi
      = ([⟨"b".toList, 1, "AAA".toList, "III".toList⟩,
          ⟨"b".toList, 1, "AAA".toList, "III".toList⟩] : List Read).length - 1 := by
  have h := claim6_duplicate_umi_accounting
    [⟨"b".toList, 1, "AAA".toList, "III".toList⟩,
     ⟨"b".toList, 1, "AAA".toList, "III".toList⟩] 1 false
    ⟨"b".toList, 2, "AAA".toList, "III".toList⟩ ⟨0, 1, 0⟩ (by decide)
  calc (processGroup [⟨"b".toList, 1, "AAA".toList, "III".toList⟩,
                      ⟨"b".toList, 1, "AAA".toList, "III".toList⟩] 1 false).2.filter_duplicate_umi
      = (⟨0, 1, 0⟩ : GroupLog).filter_duplicate_umi := by decide
    _ = _ := h

theorem drop_succ_of_drop_cons {xs : List Char} {n : Nat} {y : Char} {ys : List Char}
    (h : xs.drop n = y :: ys) : xs.drop (n + 1) = ys := by
  have h1 : (xs.drop n).drop 1 = ys := by rw [h]; rfl
  rw [← h1, List.drop_drop]

theorem take_succ_of_drop_cons {xs : List Char} {n : Nat} {y : Char} {ys : List Char}
    (h : xs.drop n = y :: ys) : xs.take (n + 1) = xs.take n ++ [y] := by
  rw [List.take_add, h]
  rfl

theorem lt_length_of_drop_cons {xs : List Char} {n : Nat} {y : Char} {ys : List Char}
    (h : xs.drop n = y :: ys) : n < xs.length := by
  have h1 : (xs.drop n).length = xs.length - n := List.length_drop n xs
  rw [h] at h1
  simp only [List.length_cons] at h1
  omega

theorem le_of_drop_nil {xs : List Char} {n : Nat} (h : xs.drop n = []) :
    xs.length ≤ n := by
  have h1 : (xs.drop n).length = xs.length - n := List.length_drop n xs
  rw [h] at h1
  simp only [List.length_nil] at h1
  omega

/-- The pattern character emitted for a non-`n` reference character. -/
theorem buildPat_cons_not_n {c : Char} (cs : List Char) (cap : Bool) (hcn : c ≠ 'n') :
    buildPat (c :: cs) cap
      = (if cap then [')'] else [])
        ++ (if c = 'N' then '.' else c.toUpper) :: buildPat cs false := by
  cases cap <;> simp [buildPat, hcn]

theorem parsePatAux_close (rest : List Char) (n : Nat) :
    parsePatAux (')' :: rest) (some n) = .grp n :: parsePatAux rest none := rfl

/-- For the five non-`n` alphabet characters, parsing the emitted pattern
character yields a `dot` (for `N`) or a literal item. -/
theorem parsePatAux_char {c : Char} (hc : c ∈ (['A', 'C', 'G', 'T', 'N'] : List Char))
    (rest : List Char) :
    parsePatAux ((if c = 'N' then '.' else c.toUpper) :: rest) none
      = (if c = 'N' then .dot else .lit c.toUpper) :: parsePatAux rest none := by
  fin_cases hc <;> rfl

theorem matchesHere_char {c : Char} (hc : c ∈ (['A', 'C', 'G', 'T', 'N'] : List Char))
    (L : List PItem) (x : Char) (xs : List Char) :
    matchesHere ((if c = 'N' then .dot else .lit c.toUpper) :: L) (x :: xs)
      = ((c == 'n' || c == 'N' || x.toUpper == c.toUpper) && matchesHere L xs) := by
  fin_cases hc <;> simp [matchesHere]

theorem matchesHere_char_nil {c : Char} (hc : c ∈ (['A', 'C', 'G', 'T', 'N'] : List Char))
    (L : List PItem) :
    matchesHere ((if c = 'N' then .dot else .lit c.toUpper) :: L) [] = false := by
  fin_cases hc <;> rfl

theorem capturesHere_char {c : Char} (hc : c ∈ (['A', 'C', 'G', 'T', 'N'] : List Char))
    (L : List PItem) (x : Char) (xs : List Char) :
    capturesHere ((if c = 'N' then .dot else .lit c.toUpper) :: L) (x :: xs)
      = capturesHere L xs := by
  fin_cases hc <;> rfl

theorem nPosBases_cons_not_n {c : Char} (hcn : c ≠ 'n') (cs w : List Char) (x : Char) :
    nPosBases (c :: cs) (x :: w) = nPosBases cs w := by
  simp [nPosBases, List.zip, hcn]

theorem nPosBases_cons_n (cs w : List Char) (x : Char) :
    nPosBases ('n' :: cs) (x :: w) = x :: nPosBases cs w := by
  simp [nPosBases, List.zip]

theorem matchesHere_grp (n : Nat) (ps : List PItem) (xs : List Char) :
    matchesHere (.grp n :: ps) xs
      = (decide (n ≤ xs.length) && matchesHere ps (xs.drop n)) := by
  cases xs <;> rfl

/-- Joint specification of the compiled pattern of a reference: group count,
total length, match semantics and capture semantics, in both capture states
of the builder. -/
theorem patSpec :
    ∀ s : List Char, (∀ c ∈ s, c ∈ (['A', 'C', 'G', 'T', 'N', 'n'] : List Char)) →
      (countGroups (parsePatAux (buildPat s false) none) = nRunsAux s false ∧
       itemsLen (parsePatAux (buildPat s false) none) = s.length ∧
       (∀ xs, matchesHere (parsePatAux (buildPat s false) none) xs = refMatch s xs) ∧
       (∀ xs, refMatch s xs = true →
          capturesHere (parsePatAux (buildPat s false) none) xs
            = nPosBases s (xs.take s.length))) ∧
      (∀ n, countGroups (parsePatAux (buildPat s true) (some n)) = nRunsAux s true + 1 ∧
       itemsLen (parsePatAux (buildPat s true) (some n)) = s.length + n ∧
       (∀ xs, matchesHere (parsePatAux (buildPat s true) (some n)) xs
          = (decide (n ≤ xs.length) && refMatch s (xs.drop n))) ∧
       (∀ xs, n ≤ xs.length → refMatch s (xs.drop n) = true →
          capturesHere (parsePatAux (buildPat s true) (some n)) xs
            = xs.take n ++ nPosBases s ((xs.drop n).take s.length)))
  | [], _ => by
    constructor
    · refine ⟨rfl, rfl, fun xs => by simp [buildPat, parsePatAux, matchesHere, refMatch],
        fun xs _ => ?_⟩
      simp [capturesHere, nPosBases]
    · intro n
      refine ⟨rfl, ?_, fun xs => ?_, fun xs hn _ => ?_⟩
      · simp [buildPat, parsePatAux, itemsLen, itemLen]
      · simp [buildPat, parsePatAux, matchesHere, refMatch]
      · simp [buildPat, parsePatAux, capturesHere, nPosBases]
  | c :: cs, hs => by
    have hcs : ∀ d ∈ cs, d ∈ (['A', 'C', 'G', 'T', 'N', 'n'] : List Char) :=
      fun d hd => hs d (by simp [hd])
    obtain ⟨⟨ihc, ihl, ihm, ihcap⟩, ihb⟩ := patSpec cs hcs
    have hc : c ∈ (['A', 'C', 'G', 'T', 'N', 'n'] : List Char) := hs c (by simp)
    by_cases hcn : c = 'n'
    · subst hcn
      -- reference character is a captured wildcard
      have hb1 : buildPat ('n' :: cs) false = '(' :: '.' :: buildPat cs true := rfl
      have hb2 : buildPat ('n' :: cs) true = '.' :: buildPat cs true := rfl
      have hp1 : parsePatAux (buildPat ('n' :: cs) false) none
          = parsePatAux (buildPat cs true) (some 1) := rfl
      have hp2 : ∀ n, parsePatAux (buildPat ('n' :: cs) true) (some n)
          = parsePatAux (buildPat cs true) (some (n + 1)) := fun n => rfl
      constructor
      · obtain ⟨ibc, ibl, ibm, ibcap⟩ := ihb 1
        refine ⟨?_, ?_, fun xs => ?_, fun xs hm => ?_⟩
        · rw [hp1, ibc]
          simp [nRunsAux]
          omega
        · rw [hp1, ibl]
          simp
        · rw [hp1, ibm]
          cases xs with
          | nil => simp [refMatch]
          | cons x xs2 => simp [refMatch, List.drop]
        · rw [hp1]
          cases xs with
          | nil => simp [refMatch] at hm
          | cons x xs2 =>
            have hm2 : refMatch cs xs2 = true := by
              simp [refMatch] at hm; exact hm
            have h2 : (x :: xs2).drop 1 = xs2 := rfl
            rw [ibcap (x :: xs2) (by simp) (by rw [h2]; exact hm2), h2]
            have e1 : (x :: xs2).take 1 = [x] := rfl
            have e3 : ('n' :: cs).length = cs.length + 1 := rfl
            rw [e1, e3, List.take_succ_cons, nPosBases_cons_n]
            rfl
      · intro n
        obtain ⟨ibc, ibl, ibm, ibcap⟩ := ihb (n + 1)
        refine ⟨?_, ?_, fun xs => ?_, fun xs hn hm => ?_⟩
        · rw [hp2, ibc]
          simp [nRunsAux]
        · rw [hp2, ibl]
          simp only [List.length_cons]
          omega
        · rw [hp2, ibm]
          cases hxd : xs.drop n with
          | nil =>
            have hlen := le_of_drop_nil hxd
            have h1 : ¬ (n + 1 ≤ xs.length) := by omega
            simp [refMatch, h1, hxd]
          | cons y ys =>
            have hlen := lt_length_of_drop_cons hxd
            have h2 : xs.drop (n + 1) = ys := drop_succ_of_drop_cons hxd
            simp [refMatch, h2, hxd, Nat.succ_le_of_lt hlen, Nat.le_of_lt hlen]
        · cases hxd : xs.drop n with
          | nil => rw [hxd] at hm; simp [refMatch] at hm
          | cons y ys =>
            have hlen := lt_length_of_drop_cons hxd
            have h2 : xs.drop (n + 1) = ys := drop_succ_of_drop_cons hxd
            rw [hxd] at hm
            have hm2 : refMatch cs ys = true := by
              simp [refMatch] at hm; exact hm
            rw [hp2, ibcap xs (by omega) (by rw [h2]; exact hm2)]
            rw [take_succ_of_drop_cons hxd, h2]
            have e3 : ('n' :: cs).length = cs.length + 1 := rfl
            rw [e3, List.take_succ_cons, nPosBases_cons_n]
            simp
    · -- reference character is a literal or uncaptured wildcard
      have hc5 : c ∈ (['A', 'C', 'G', 'T', 'N'] : List Char) := by
        fin_cases hc <;> simp_all
      have hb1 : buildPat (c :: cs) false
          = (if c = 'N' then '.' else c.toUpper) :: buildPat cs false := by
        simpa using buildPat_cons_not_n cs false hcn
      have hb2 : buildPat (c :: cs) true
          = ')' :: (if c = 'N' then '.' else c.toUpper) :: buildPat cs false := by
        simpa using buildPat_cons_not_n cs true hcn
      have hp1 : parsePatAux (buildPat (c :: cs) false) none
          = (if c = 'N' then .dot else .lit c.toUpper)
            :: parsePatAux (buildPat cs false) none := by
        rw [hb1, parsePatAux_char hc5]
      have hp2 : ∀ n, parsePatAux (buildPat (c :: cs) true) (some n)
          = .grp n :: (if c = 'N' then .dot else .lit c.toUpper)
            :: parsePatAux (buildPat cs false) none := by
        intro n
        rw [hb2, parsePatAux_close, parsePatAux_char hc5]
      have hfc : countGroups (parsePatAux (buildPat (c :: cs) false) none)
          = nRunsAux (c :: cs) false := by
        rw [hp1]
        have : countGroups ((if c = 'N' then PItem.dot else .lit c.toUpper)
            :: parsePatAux (buildPat cs false) none)
            = countGroups (parsePatAux (buildPat cs false) none) := by
          split <;> rfl
        rw [this, ihc]
        simp [nRunsAux, hcn]
      have hfl : itemsLen (parsePatAux (buildPat (c :: cs) false) none)
          = (c :: cs).length := by
        rw [hp1]
        have : itemLen (if c = 'N' then PItem.dot else .lit c.toUpper) = 1 := by
          split <;> rfl
        simp only [itemsLen, List.map, List.sum_cons, this, List.length_cons]
        have h2 := ihl
        simp only [itemsLen] at h2
        omega
      have hfm : ∀ xs, matchesHere (parsePatAux (buildPat (c :: cs) false) none) xs
          = refMatch (c :: cs) xs := by
        intro xs
        rw [hp1]
        cases xs with
        | nil => rw [matchesHere_char_nil hc5]; rfl
        | cons x xs2 =>
          rw [matchesHere_char hc5, ihm xs2]
          rfl
      have hfcap : ∀ xs, refMatch (c :: cs) xs = true →
          capturesHere (parsePatAux (buildPat (c :: cs) false) none) xs
            = nPosBases (c :: cs) (xs.take (c :: cs).length) := by
        intro xs hm
        rw [hp1]
        cases xs with
        | nil => simp [refMatch] at hm
        | cons x xs2 =>
          have hm2 : refMatch cs xs2 = true := by
            simp [refMatch] at hm; exact hm.2
          rw [capturesHere_char hc5, ihcap xs2 hm2]
          have e3 : (c :: cs).length = cs.length + 1 := rfl
          rw [e3, List.take_succ_cons, nPosBases_cons_not_n hcn]
      refine ⟨⟨hfc, hfl, hfm, hfcap⟩, fun n => ⟨?_, ?_, fun xs => ?_, fun xs hn hm => ?_⟩⟩
      · rw [hp2, ← hp1]
        show countGroups (parsePatAux (buildPat (c :: cs) false) none) + 1 = _
        rw [hfc]
        simp [nRunsAux, hcn]
      · rw [hp2]
        have h2 : itemsLen ((if c = 'N' then PItem.dot else .lit c.toUpper)
            :: parsePatAux (buildPat cs false) none) = (c :: cs).length := by
          rw [← hp1]; exact hfl
        simp only [itemsLen, List.map, List.sum_cons, itemLen] at h2 ⊢
        omega
      · rw [hp2, matchesHere_grp, ← hp1, hfm (xs.drop n)]
      · rw [hp2]
        show xs.take n
            ++ capturesHere ((if c = 'N' then PItem.dot else .lit c.toUpper)
                 :: parsePatAux (buildPat cs false) none) (xs.drop n) = _
        rw [← hp1, hfcap (xs.drop n) hm]

theorem zip_take_len : ∀ s w : List Char, List.zip s (w.take s.length) = List.zip s w
  | [], _ => by simp
  | _ :: _, [] => by simp
  | c :: cs, x :: ws => by
    simp only [List.length_cons, List.take_succ_cons, List.zip_cons_cons]
    rw [zip_take_len cs ws]

theorem refMatch_eq : ∀ s xs : List Char,
    refMatch s xs
      = (decide (s.length ≤ xs.length)
         && (List.zip s xs).all fun p => p.1 == 'n' || p.1 == 'N' || p.2.toUpper == p.1.toUpper)
  | [], xs => by simp [refMatch]
  | c :: cs, [] => by simp [refMatch]
  | c :: cs, x :: xs => by
    rw [show refMatch (c :: cs) (x :: xs)
        = ((c == 'n' || c == 'N' || x.toUpper == c.toUpper) && refMatch cs xs) from rfl]
    rw [refMatch_eq cs xs]
    simp only [List.zip_cons_cons, List.all_cons, List.length_cons]
    have e : (cs.length + 1 ≤ xs.length + 1) ↔ (cs.length ≤ xs.length) := by omega
    simp only [e]
    cases decide (cs.length ≤ xs.length) <;>
      cases (c == 'n' || c == 'N' || x.toUpper == c.toUpper) <;> simp

theorem refOccursAt_eq (s input : List Char) (u : Nat) :
    refOccursAt s input u = (decide (u ≤ input.length) && refMatch s (input.drop u)) := by
  rw [refOccursAt, zip_take_len, refMatch_eq]
  by_cases h : u ≤ input.length
  · have e : (u + s.length ≤ input.length) ↔ (s.length ≤ (input.drop u).length) := by
      simp only [List.length_drop]
      omega
    simp only [e]
    simp [h]
  · have h1 : ¬ (u + s.length ≤ input.length) := by omega
    simp [h, h1]

theorem searchFrom_found (items : List PItem) :
    ∀ (xs : List Char) (o k : Nat), k ≤ xs.length → matchesHere items (xs.drop k) = true →
      ∃ r, r ≤ k ∧ searchFrom items xs o = some (o + r) ∧
        matchesHere items (xs.drop r) = true ∧
        ∀ u, u < r → matchesHere items (xs.drop u) = false
  | [], o, k, hk, hm => by
    have hk0 : k = 0 := by simpa using hk
    subst hk0
    rw [List.drop_zero] at hm
    exact ⟨0, Nat.le_refl 0, by simp [searchFrom, hm], by simpa using hm,
      fun u hu => absurd hu (by omega)⟩
  | x :: rest, o, k, hk, hm => by
    cases h0 : matchesHere items (x :: rest) with
    | true =>
      exact ⟨0, Nat.zero_le k, by simp [searchFrom, h0], by simpa using h0,
        fun u hu => absurd hu (by omega)⟩
    | false =>
      cases k with
      | zero =>
        rw [List.drop_zero] at hm
        rw [hm] at h0
        cases h0
      | succ k2 =>
        have hk2 : k2 ≤ rest.length := by
          simp only [List.length_cons] at hk
          omega
        have hm2 : matchesHere items (rest.drop k2) = true := by
          simpa [List.drop_succ_cons] using hm
        obtain ⟨r2, hr2k, hsearch, hrm, hmin⟩ := searchFrom_found items rest (o + 1) k2 hk2 hm2
        refine ⟨r2 + 1, by omega, ?_, ?_, ?_⟩
        · have e : o + 1 + r2 = o + (r2 + 1) := by omega
          simp only [searchFrom, h0, Bool.false_eq_true, if_false]
          rw [hsearch, e]
        · simpa [List.drop_succ_cons] using hrm
        · intro u hu
          cases u with
          | zero => simpa using h0
          | succ u2 => simpa [List.drop_succ_cons] using hmin u2 (by omega)

/-- Claim C7 (amended): for a reference over `{A,C,G,T,N,n}` with `k` maximal
runs of lowercase `n`, the compiled pattern has exactly `k` capture groups;
extracting from an input in which the reference occurs at offset `o` returns
a valid `ExtractedUMI` whose `from` is the LEFTMOST offset at which the
reference matches (which is at most `o`, and below which no offset matches),
whose `length` is the reference length, and whose `barcode` is the
concatenation, in order, of the bases at the `n`-positions of the matched
window. -/
theorem claim7_umi_extraction (ref input : List Char)
    (href : ∀ c ∈ ref, c ∈ (['A', 'C', 'G', 'T', 'N', 'n'] : List Char))
    (o : Nat) (hocc : refOccursAt ref input o = true) :
    countGroups (parsePat (buildPat ref false)) = nRuns ref ∧
    ∃ o2, o2 ≤ o ∧ refOccursAt ref input o2 = true ∧
      (∀ u, u < o2 → refOccursAt ref input u = false) ∧
      UMIExtractor_run ref input
        = some ⟨nPosBases ref ((input.drop o2).take ref.length), o2, ref.length⟩ := by
  obtain ⟨⟨hcg, hlen, hmatch, hcap⟩, _⟩ := patSpec ref href
  rw [refOccursAt_eq] at hocc
  have hu : o ≤ input.length := by
    by_contra hno
    simp [hno] at hocc
  have hrm : refMatch ref (input.drop o) = true := by
    simpa [hu] using hocc
  have hmo : matchesHere (parsePatAux (buildPat ref false) none) (input.drop o) = true := by
    rw [hmatch]; exact hrm
  obtain ⟨r, hrk, hsearch, hrmatch, hmin⟩ :=
    searchFrom_found (parsePatAux (buildPat ref false) none) input 0 o hu hmo
  have hrm2 : refMatch ref (input.drop r) = true := by
    rw [← hmatch]; exact hrmatch
  refine ⟨hcg, r, hrk, ?_, ?_, ?_⟩
  · rw [refOccursAt_eq]
    simp [Nat.le_trans hrk hu, hrm2]
  · intro u hu2
    have hf : matchesHere (parsePatAux (buildPat ref false) none) (input.drop u) = false :=
      hmin u hu2
    rw [hmatch] at hf
    rw [refOccursAt_eq, hf]
    simp
  · have hs : searchFrom (parsePatAux (buildPat ref false) none) input 0 = some r := by
      rw [hsearch]
      simp
    simp only [UMIExtractor_run, searchLeftmost, parsePat, hs]
    rw [hcap (input.drop r) hrm2, hlen]

/-- Witness for claim C7 at reference `ACnnGT`, input `ACGTGT` (spec
scenario 2): two `n`-positions in one run, one capture group, match at
offset 0 with barcode `GT`. -/
theorem claim7_witness :
    countGroups (parsePat (buildPat "ACnnGT".toList false)) = nRuns "ACnnGT".toList ∧
    UMIExtractor_run "ACnnGT".toList "ACGTGT".toList = some ⟨"GT".toList, 0, 6⟩ := by
  obtain ⟨hcg, o2, ho2, hocc2, hmin, hrun⟩ :=
    claim7_umi_extraction "ACnnGT".toList "ACGTGT".toList (by decide) 0 (by decide)
  have ho0 : o2 = 0 := Nat.le_zero.mp ho2
  subst ho0
  refine ⟨hcg, ?_⟩
  rw [hrun]
  decide

theorem getD_irrel : ∀ (l : List Nat) (j : Nat), j < l.length →
    ∀ d1 d2 : Nat, l.getD j d1 = l.getD j d2
  | [], j, h, _, _ => absurd h (by simp)
  | x :: l, 0, _, _, _ => rfl
  | x :: l, j + 1, h, d1, d2 => by
    simp only [List.getD_cons_succ]
    exact getD_irrel l j (by simpa using h) d1 d2

theorem getLastD_eq_getD : ∀ (l : List Nat) (d : Nat), l.getLastD d = l.getD (l.length - 1) d
  | [], _ => rfl
  | [x], _ => rfl
  | x :: y :: l, d => by
    rw [List.getLastD_cons, getLastD_eq_getD (y :: l) x]
    simp only [List.length_cons]
    have e : l.length + 1 + 1 - 1 = (l.length + 1 - 1) + 1 := by omega
    rw [e, List.getD_cons_succ]
    exact getD_irrel (y :: l) (l.length + 1 - 1) (by simp) x d

theorem getD_zipWith (f : Nat → Char → Nat) :
    ∀ (xs : List Nat) (ys : List Char) (j : Nat), j < xs.length → j < ys.length →
      (List.zipWith f xs ys).getD j 0 = f (xs.getD j 0) (ys.getD j ' ')
  | [], _, j, h, _ => absurd h (by simp)
  | x :: xs, [], j, _, h => absurd h (by simp)
  | x :: xs, y :: ys, 0, _, _ => rfl
  | x :: xs, y :: ys, j + 1, h1, h2 => by
    simp only [List.zipWith_cons_cons, List.getD_cons_succ]
    exact getD_zipWith f xs ys j (by simpa using h1) (by simpa using h2)

theorem getD_of_drop_cons2 : ∀ (xs : List Char) (r : Nat) (y : Char) (ys : List Char)
    (d : Char), xs.drop r = y :: ys → xs.getD r d = y
  | [], r, y, ys, d, h => by simp at h
  | x :: xs, 0, y, ys, d, h => by
    rw [List.drop_zero] at h
    cases h
    rfl
  | x :: xs, r + 1, y, ys, d, h => by
    rw [List.drop_succ_cons] at h
    rw [List.getD_cons_succ]
    exact getD_of_drop_cons2 xs r y ys d h

theorem getD_drop_one : ∀ (l : List Nat) (t : Nat) (d : Nat),
    (l.drop 1).getD t d = l.getD (t + 1) d
  | [], t, d => by simp
  | x :: l, t, d => rfl

theorem diagT_le_min (a b : List Char) : ∀ i j, diagT a b i j ≤ min i j
  | 0, j => by simp [diagT]
  | i + 1, 0 => by simp [diagT]
  | i + 1, j + 1 => by
    have ih := diagT_le_min a b i j
    simp only [diagT]
    split <;> omega

theorem matchCnt_le_length : ∀ A B : List Char, matchCnt A B ≤ A.length
  | [], _ => by simp [matchCnt]
  | x :: xs, [] => by simp [matchCnt]
  | x :: xs, y :: ys => by
    have ih := matchCnt_le_length xs ys
    simp only [matchCnt, List.length_cons]
    split <;> omega

theorem matchCnt_eq_iff : ∀ A B : List Char, A.length = B.length →
    (matchCnt A B = A.length ↔ A = B)
  | [], [], _ => by simp [matchCnt]
  | [], y :: ys, h => by simp at h
  | x :: xs, [], h => by simp at h
  | x :: xs, y :: ys, h => by
    have hlen : xs.length = ys.length := by simpa using h
    have ih := matchCnt_eq_iff xs ys hlen
    have hle := matchCnt_le_length xs ys
    show ((if x = y then 1 else 0) + matchCnt xs ys = xs.length + 1 ↔ x :: xs = y :: ys)
    by_cases hxy : x = y
    · subst hxy
      rw [if_pos rfl]
      constructor
      · intro hcnt
        have h2 : matchCnt xs ys = xs.length := by omega
        rw [ih.mp h2]
      · intro hcons
        have h2 : xs = ys := by injection hcons
        have h3 := ih.mpr h2
        omega
    · rw [if_neg hxy]
      constructor
      · intro hcnt
        exfalso
        omega
      · intro hcons
        exfalso
        apply hxy
        injection hcons

theorem matchCnt_append_one : ∀ (A B : List Char) (x y : Char), A.length = B.length →
    matchCnt (A ++ [x]) (B ++ [y]) = matchCnt A B + (if x = y then 1 else 0)
  | [], [], x, y, _ => by simp [matchCnt]
  | [], b :: bs, _, _, h => by simp at h
  | a2 :: as, [], _, _, h => by simp at h
  | a2 :: as, b :: bs, x, y, h => by
    have hlen : as.length = bs.length := by simpa using h
    show (if a2 = b then 1 else 0) + matchCnt (as ++ [x]) (bs ++ [y])
        = ((if a2 = b then 1 else 0) + matchCnt as bs) + (if x = y then 1 else 0)
    rw [matchCnt_append_one as bs x y hlen]
    omega

theorem take_eq_append_getD {a : List Char} {j : Nat} (hj : j < a.length) :
    a.take (j + 1) = a.take j ++ [a.getD j ' '] := by
  cases hd : a.drop j with
  | nil => exact absurd (le_of_drop_nil hd) (by omega)
  | cons y ys =>
    rw [take_succ_of_drop_cons hd, getD_of_drop_cons2 a j y ys ' ' hd]

theorem diagT_as_matchCnt (a b : List Char) : ∀ i j, i ≤ b.length → j ≤ a.length →
    diagT a b i j
      = matchCnt ((a.take j).drop (j - min i j)) ((b.take i).drop (i - min i j))
  | 0, j, _, hj => by
    have h1 : (a.take j).drop (j - min 0 j) = [] := by
      apply List.drop_eq_nil_of_le
      simp only [List.length_take]
      omega
    rw [h1]
    simp [diagT, matchCnt]
  | i + 1, 0, hi, _ => by
    have h1 : (b.take (i + 1)).drop (i + 1 - min (i + 1) 0) = [] := by
      apply List.drop_eq_nil_of_le
      simp only [List.length_take]
      omega
    rw [h1]
    cases hd : (a.take 0).drop 0 <;> simp [diagT, matchCnt]
  | i + 1, j + 1, hi, hj => by
    have hi2 : i ≤ b.length := by omega
    have hj2 : j ≤ a.length := by omega
    have ih := diagT_as_matchCnt a b i j hi2 hj2
    have hmin : min (i + 1) (j + 1) = min i j + 1 := by omega
    have hta : a.take (j + 1) = a.take j ++ [a.getD j ' '] := take_eq_append_getD (by omega)
    have htb : b.take (i + 1) = b.take i ++ [b.getD i ' '] := take_eq_append_getD (by omega)
    have hla : (a.take j).length = j := by
      simp only [List.length_take]; omega
    have hlb : (b.take i).length = i := by
      simp only [List.length_take]; omega
    have hda : (a.take (j + 1)).drop (j + 1 - min (i + 1) (j + 1))
        = (a.take j).drop (j - min i j) ++ [a.getD j ' '] := by
      rw [hta, hmin]
      have e : j + 1 - (min i j + 1) = j - min i j := by omega
      rw [e, List.drop_append_of_le_length (by omega)]
    have hdb : (b.take (i + 1)).drop (i + 1 - min (i + 1) (j + 1))
        = (b.take i).drop (i - min i j) ++ [b.getD i ' '] := by
      rw [htb, hmin]
      have e : i + 1 - (min i j + 1) = i - min i j := by omega
      rw [e, List.drop_append_of_le_length (by omega)]
    rw [hda, hdb]
    have hseglen : ((a.take j).drop (j - min i j)).length
        = ((b.take i).drop (i - min i j)).length := by
      simp only [List.length_drop, hla, hlb]
      omega
    rw [matchCnt_append_one _ _ _ _ hseglen, ← ih]
    rfl

theorem diagT_row (a b : List Char) (r : Nat) (hrb : r + 1 ≤ b.length)
    (hra : r + 1 ≤ a.length) :
    diagT a b (r + 1) a.length = matchCnt (a.drop (a.length - (r + 1))) (b.take (r + 1)) := by
  have heq := diagT_as_matchCnt a b (r + 1) a.length hrb (Nat.le_refl _)
  have hmin : min (r + 1) a.length = r + 1 := by omega
  rw [hmin] at heq
  rw [heq, List.take_length]
  have e : r + 1 - (r + 1) = 0 := by omega
  rw [e, List.drop_zero]

theorem diagT_col (a b : List Char) (c : Nat) (hca : c + 1 ≤ a.length)
    (hcb : c + 1 ≤ b.length) :
    diagT a b b.length (c + 1) = matchCnt (a.take (c + 1)) (b.drop (b.length - (c + 1))) := by
  have heq := diagT_as_matchCnt a b b.length (c + 1) (Nat.le_refl _) hca
  have hmin : min b.length (c + 1) = c + 1 := by omega
  rw [hmin] at heq
  rw [heq, List.take_length]
  have e : c + 1 - (c + 1) = 0 := by omega
  rw [e, List.drop_zero]

theorem rowAccept_iff (a b : List Char) (r : Nat) (hr : r < b.length) :
    r + 1 ≤ diagT a b (r + 1) a.length ↔ exactOv a b (r + 1) := by
  constructor
  · intro hv
    have hbound := diagT_le_min a b (r + 1) a.length
    have hra : r + 1 ≤ a.length := by omega
    have hd := diagT_row a b r (by omega) hra
    rw [hd] at hv
    have hlenA : (a.drop (a.length - (r + 1))).length = r + 1 := by
      simp only [List.length_drop]; omega
    have hlenB : (b.take (r + 1)).length = r + 1 := by
      simp only [List.length_take]; omega
    have hle := matchCnt_le_length (a.drop (a.length - (r + 1))) (b.take (r + 1))
    have hfull : matchCnt (a.drop (a.length - (r + 1))) (b.take (r + 1))
        = (a.drop (a.length - (r + 1))).length := by omega
    exact ⟨hra, by omega, (matchCnt_eq_iff _ _ (by rw [hlenA, hlenB])).mp hfull⟩
  · intro hex
    obtain ⟨hA, hB, heq2⟩ := hex
    have hd := diagT_row a b r hB hA
    rw [hd]
    have hlenA : (a.drop (a.length - (r + 1))).length = r + 1 := by
      simp only [List.length_drop]; omega
    have hlenB : (b.take (r + 1)).length = r + 1 := by
      simp only [List.length_take]; omega
    have := (matchCnt_eq_iff _ _ (by rw [hlenA, hlenB])).mpr heq2
    omega

theorem colAccept_iff (a b : List Char) (c : Nat) (hc : c < a.length) :
    c + 1 ≤ diagT a b b.length (c + 1) ↔ exactOv b a (c + 1) := by
  constructor
  · intro hv
    have hbound := diagT_le_min a b b.length (c + 1)
    have hcb : c + 1 ≤ b.length := by omega
    have hd := diagT_col a b c (by omega) hcb
    rw [hd] at hv
    have hlenA : (a.take (c + 1)).length = c + 1 := by
      simp only [List.length_take]; omega
    have hlenB : (b.drop (b.length - (c + 1))).length = c + 1 := by
      simp only [List.length_drop]; omega
    have hle := matchCnt_le_length (a.take (c + 1)) (b.drop (b.length - (c + 1)))
    have hfull : matchCnt (a.take (c + 1)) (b.drop (b.length - (c + 1)))
        = (a.take (c + 1)).length := by omega
    have heq2 := (matchCnt_eq_iff _ _ (by rw [hlenA, hlenB])).mp hfull
    exact ⟨hcb, by omega, heq2.symm⟩
  · intro hex
    obtain ⟨hB, hA, heq2⟩ := hex
    have hd := diagT_col a b c hA hB
    rw [hd]
    have hlenA : (a.take (c + 1)).length = c + 1 := by
      simp only [List.length_take]; omega
    have hlenB : (b.drop (b.length - (c + 1))).length = c + 1 := by
      simp only [List.length_drop]; omega
    have := (matchCnt_eq_iff _ _ (by rw [hlenA, hlenB])).mpr heq2.symm
    omega

theorem rowScan_spec (a b : List Char) :
    ∀ (bs : List Char) (r : Nat) (row : List Nat) (mo mr : Nat),
      b.drop r = bs → r ≤ b.length →
      row.length = a.length + 1 →
      (∀ j, j ≤ a.length → row.getD j 0 = diagT a b r j) →
      RowInv a b r mo mr →
      (rowScan a 0 bs row r mo mr).1.length = a.length + 1 ∧
      (∀ j, j ≤ a.length →
        (rowScan a 0 bs row r mo mr).1.getD j 0 = diagT a b b.length j) ∧
      RowInv a b b.length (rowScan a 0 bs row r mo mr).2.1 (rowScan a 0 bs row r mo mr).2.2
  | [], r, row, mo, mr => by
    intro hdrop hrle hlen hcont hinv
    have hr : r = b.length := by
      have h1 : (b.drop r).length = b.length - r := List.length_drop r b
      rw [hdrop] at h1
      simp only [List.length_nil] at h1
      omega
    subst hr
    exact ⟨hlen, hcont, hinv⟩
  | bc :: bs2, r, row, mo, mr => by
    intro hdrop hrle hlen hcont hinv
    have hrlt : r < b.length := lt_length_of_drop_cons hdrop
    have hbc : b.getD r ' ' = bc := getD_of_drop_cons2 b r bc bs2 ' ' hdrop
    have hdrop2 : b.drop (r + 1) = bs2 := drop_succ_of_drop_cons hdrop
    have hclen : (ovRow a bc row).length = a.length + 1 := by
      simp only [ovRow, List.length_cons, List.length_zipWith, hlen]
      omega
    have hccont : ∀ j, j ≤ a.length → (ovRow a bc row).getD j 0 = diagT a b (r + 1) j := by
      intro j hj
      cases j with
      | zero => rfl
      | succ j2 =>
        show (0 :: List.zipWith (fun p ac => p + (if ac = bc then 1 else 0)) row a).getD
            (j2 + 1) 0 = diagT a b (r + 1) (j2 + 1)
        rw [List.getD_cons_succ,
          getD_zipWith _ row a j2 (by omega) (by omega),
          hcont j2 (by omega)]
        show diagT a b r j2 + (if a.getD j2 ' ' = bc then 1 else 0) = _
        rw [← hbc]
        rfl
    have hv : (ovRow a bc row).getLastD 0 = diagT a b (r + 1) a.length := by
      rw [getLastD_eq_getD, hclen]
      simp only [Nat.add_sub_cancel]
      exact hccont a.length (Nat.le_refl _)
    have hstep : rowScan a 0 (bc :: bs2) row r mo mr
        = if mo < (ovRow a bc row).getLastD 0
             ∧ r + 1 ≤ (ovRow a bc row).getLastD 0 + 0
          then rowScan a 0 bs2 (ovRow a bc row) (r + 1) ((ovRow a bc row).getLastD 0) r
          else rowScan a 0 bs2 (ovRow a bc row) (r + 1) mo mr := rfl
    rw [hstep, hv]
    have hbound := diagT_le_min a b (r + 1) a.length
    by_cases hacc : mo < diagT a b (r + 1) a.length
        ∧ r + 1 ≤ diagT a b (r + 1) a.length + 0
    · rw [if_pos hacc]
      obtain ⟨h1, h2⟩ := hacc
      rw [Nat.add_zero] at h2
      have hex : exactOv a b (r + 1) := (rowAccept_iff a b r hrlt).mp h2
      have hveq : diagT a b (r + 1) a.length = r + 1 := by omega
      rw [hveq]
      exact rowScan_spec a b bs2 (r + 1) (ovRow a bc row) (r + 1) r hdrop2 (by omega)
        hclen hccont
        (Or.inr ⟨rfl, Nat.le_refl _, hex, fun L hL1 hL2 => absurd hL2 (by omega)⟩)
    · rw [if_neg hacc]
      have hnotex : ¬ exactOv a b (r + 1) := by
        intro hex
        have hge := (rowAccept_iff a b r hrlt).mpr hex
        apply hacc
        rcases hinv with ⟨h0, _, _⟩ | ⟨_, hmoi, _, _⟩
        · exact ⟨by omega, by omega⟩
        · exact ⟨by omega, by omega⟩
      refine rowScan_spec a b bs2 (r + 1) (ovRow a bc row) mo mr hdrop2 (by omega)
        hclen hccont ?_
      rcases hinv with ⟨h0, h0r, hnone⟩ | ⟨hmr2, hmoi, hexm, hmax⟩
      · left
        refine ⟨h0, h0r, fun L hL1 hL2 => ?_⟩
        by_cases hLr : L ≤ r
        · exact hnone L hL1 hLr
        · have : L = r + 1 := by omega
          subst this
          exact hnotex
      · right
        refine ⟨hmr2, by omega, hexm, fun L hL1 hL2 => ?_⟩
        by_cases hLr : L ≤ r
        · exact hmax L hL1 hLr
        · have : L = r + 1 := by omega
          subst this
          exact hnotex

theorem colScan_spec (a b : List Char) :
    ∀ (ws : List Nat) (c mo mr : Nat) (ord : Bool),
      c ≤ a.length → ws.length = a.length - c →
      (∀ t, t < ws.length → ws.getD t 0 = diagT a b b.length (c + t + 1)) →
      ColInv a b c mo mr →
      ColInv a b a.length (colScan 0 ws c mo mr ord).1 (colScan 0 ws c mo mr ord).2.1
  | [], c, mo, mr, ord => by
    intro hc hl hcont hinv
    have : c = a.length := by
      simp only [List.length_nil] at hl
      omega
    subst this
    exact hinv
  | w :: ws2, c, mo, mr, ord => by
    intro hc hl hcont hinv
    have hclt : c < a.length := by
      simp only [List.length_cons] at hl
      omega
    have hw : w = diagT a b b.length (c + 1) := by
      have h1 := hcont 0 (by simp)
      simpa using h1
    have hcont2 : ∀ t, t < ws2.length → ws2.getD t 0 = diagT a b b.length (c + 1 + t + 1) := by
      intro t ht
      have h1 := hcont (t + 1) (by simp only [List.length_cons]; omega)
      rw [List.getD_cons_succ] at h1
      have e : c + (t + 1) + 1 = c + 1 + t + 1 := by omega
      rw [e] at h1
      exact h1
    have hstep : colScan 0 (w :: ws2) c mo mr ord
        = if mo < w ∧ c + 1 ≤ w + 0 then colScan 0 ws2 (c + 1) w c false
          else colScan 0 ws2 (c + 1) mo mr ord := rfl
    rw [hstep]
    subst hw
    have hbound := diagT_le_min a b b.length (c + 1)
    by_cases hacc : mo < diagT a b b.length (c + 1)
        ∧ c + 1 ≤ diagT a b b.length (c + 1) + 0
    · rw [if_pos hacc]
      obtain ⟨h1, h2⟩ := hacc
      rw [Nat.add_zero] at h2
      have hex : exactOv b a (c + 1) := (colAccept_iff a b c hclt).mp h2
      have hveq : diagT a b b.length (c + 1) = c + 1 := by omega
      rw [hveq]
      apply colScan_spec a b ws2 (c + 1) (c + 1) c false (by omega)
        (by simp only [List.length_cons] at hl; omega) hcont2
      right
      refine ⟨rfl, Or.inr hex, ?_, fun L hL1 hL2 => absurd hL2 (by omega)⟩
      rcases hinv with ⟨h0, _, hA, _⟩ | ⟨_, _, hA, _⟩
      · exact fun L hL => hA L (by omega)
      · exact fun L hL => hA L (by omega)
    · rw [if_neg hacc]
      have hmole : exactOv b a (c + 1) → c + 1 ≤ mo := by
        intro hex
        have h2 := (colAccept_iff a b c hclt).mpr hex
        by_contra hlt
        exact hacc ⟨by omega, by omega⟩
      apply colScan_spec a b ws2 (c + 1) mo mr ord (by omega)
        (by simp only [List.length_cons] at hl; omega) hcont2
      rcases hinv with ⟨h0, h0r, hA, hBc⟩ | ⟨hmr2, hexm, hA, hBc⟩
      · left
        refine ⟨h0, h0r, hA, fun L hL1 hL2 => ?_⟩
        by_cases hLc : L ≤ c
        · exact hBc L hL1 hLc
        · have : L = c + 1 := by omega
          subst this
          intro hex
          have := hmole hex
          omega
      · right
        refine ⟨hmr2, hexm, hA, fun L hL1 hL2 => ?_⟩
        by_cases hLc : L ≤ c
        · exact hBc L hL1 hLc
        · have : L = c + 1 := by omega
          subst this
          intro hex
          have := hmole hex
          omega

/-- Claim C2 (amended): for `max_mismatches = 0`, whenever some non-empty
exact overlap exists (a suffix of `A` equal to a prefix of `B`, or, mirrored,
a prefix of `A` equal to a suffix of `B`), `find_overlapv_256` returns
`mismatches = 0` and an `overlap` that is the MAXIMUM length of such an exact
overlap (the returned overlap is itself exact in one of the two
orientations). For `K > 0` the original claim fails: the result can exceed
`min(|A|,|B|)` and need not maximize the overlap length. -/
theorem claim2_overlap_max_exact (a b : List Char) (L0 : Nat) (hL0 : 1 ≤ L0)
    (hex0 : exactOv a b L0 ∨ exactOv b a L0) :
    (find_overlapv a b 0).mismatches = 0 ∧
    (exactOv a b (find_overlapv a b 0).overlap
      ∨ exactOv b a (find_overlapv a b 0).overlap) ∧
    ∀ L, 1 ≤ L → (exactOv a b L ∨ exactOv b a L) →
      L ≤ (find_overlapv a b 0).overlap := by
  obtain ⟨hrl, hrc, hrinv⟩ := rowScan_spec a b b 0 (ovInit a) 0 0 rfl (Nat.zero_le _)
    (by simp [ovInit])
    (fun j hj => by
      rw [show (ovInit a).getD j 0 = 0 from
        getD_replicate (a.length + 1) j 0 0 (by omega)]
      rfl)
    (Or.inl ⟨rfl, rfl, fun L h1 h2 => absurd h1 (by omega)⟩)
  have hcinv := colScan_spec a b
    ((rowScan a 0 b (ovInit a) 0 0 0).1.drop 1) 0
    (rowScan a 0 b (ovInit a) 0 0 0).2.1
    (rowScan a 0 b (ovInit a) 0 0 0).2.2 true
    (Nat.zero_le _)
    (by simp only [List.length_drop, hrl]; omega)
    (fun t ht => by
      have hta : t + 1 ≤ a.length := by
        simp only [List.length_drop, hrl] at ht
        omega
      rw [getD_drop_one, hrc (t + 1) hta]
      have e : 0 + t + 1 = t + 1 := by omega
      rw [e])
    (by
      rcases hrinv with ⟨h0, h0r, hnone⟩ | ⟨hmr2, hmoi, hexm, hmax⟩
      · exact Or.inl ⟨h0, h0r, fun L h1 hex => hnone L h1 hex.2.1 hex,
          fun L h1 h2 => absurd h1 (by omega)⟩
      · exact Or.inr ⟨hmr2, Or.inl hexm, fun L h1 hex => hmax L h1 hex.2.1 hex,
          fun L h1 h2 => absurd h1 (by omega)⟩)
  have hres : find_overlapv a b 0 = ⟨(colScan 0 ((rowScan a 0 b (ovInit a) 0 0 0).1.drop 1)
      0 (rowScan a 0 b (ovInit a) 0 0 0).2.1 (rowScan a 0 b (ovInit a) 0 0 0).2.2 true).2.1 + 1,
      (colScan 0 ((rowScan a 0 b (ovInit a) 0 0 0).1.drop 1)
      0 (rowScan a 0 b (ovInit a) 0 0 0).2.1 (rowScan a 0 b (ovInit a) 0 0 0).2.2 true).2.1 + 1
      - (colScan 0 ((rowScan a 0 b (ovInit a) 0 0 0).1.drop 1)
      0 (rowScan a 0 b (ovInit a) 0 0 0).2.1 (rowScan a 0 b (ovInit a) 0 0 0).2.2 true).1,
      (colScan 0 ((rowScan a 0 b (ovInit a) 0 0 0).1.drop 1)
      0 (rowScan a 0 b (ovInit a) 0 0 0).2.1 (rowScan a 0 b (ovInit a) 0 0 0).2.2 true).2.2⟩ :=
    rfl
  rcases hcinv with ⟨h0, h0r, hA, hB⟩ | ⟨hmr2, hexm, hA, hB⟩
  · exfalso
    rcases hex0 with hex | hex
    · exact hA L0 hL0 hex
    · exact hB L0 hL0 hex.2.1 hex
  · rw [hres]
    simp only
    constructor
    · omega
    constructor
    · rw [show (colScan 0 ((rowScan a 0 b (ovInit a) 0 0 0).1.drop 1)
          0 (rowScan a 0 b (ovInit a) 0 0 0).2.1
          (rowScan a 0 b (ovInit a) 0 0 0).2.2 true).2.1 + 1
          = (colScan 0 ((rowScan a 0 b (ovInit a) 0 0 0).1.drop 1)
          0 (rowScan a 0 b (ovInit a) 0 0 0).2.1
          (rowScan a 0 b (ovInit a) 0 0 0).2.2 true).1 from by omega]
      exact hexm
    · intro L hL1 hexL
      by_contra hgt
      rcases hexL with hex | hex
      · exact hA L (by omega) hex
      · exact hB L (by omega) hex.2.1 hex

/-- Witness for claim C2 at `A = "GACGT"`, `B = "CGTAA"`: the exact overlap
`CGT` of length 3 is found with 0 mismatches. -/
theorem claim2_witness :
    1 ≤ 3 ∧ exactOv "GACGT".toList "CGTAA".toList 3 ∧
    (find_overlapv "GACGT".toList "CGTAA".toList 0).mismatches = 0 ∧
    3 ≤ (find_overlapv "GACGT".toList "CGTAA".toList 0).overlap := by
  have h := claim2_overlap_max_exact "GACGT".toList "CGTAA".toList 3 (by decide)
    (Or.inl (by decide))
  exact ⟨by decide, by decide, h.1, h.2.2 3 (by decide) (Or.inl (by decide))⟩

end DSA
